import Mathlib

/-!
Verification development for the courtviewer Chrome extension.

The development shallowly embeds the two cores of the repository:

* the content-script step state machine and extraction engine
  (`src/content/scraper.ts`): page classification, results-listing link
  search, party extraction, date parsing and the three-strategy search
  for the next court date;

* the background service worker orchestrator (the background script):
  job registry, per-case dedup, the scrape queue, the per-job timeout
  handler and result persistence into the case store.

DOM documents are embedded as structures whose fields record exactly the
observations the source code makes of the document (selector hits, text
contents of the relevant elements).  JavaScript strings are Lean `String`s;
the regular expressions of the source are implemented as executable
scanners over `List Char` that follow the source patterns literally.
-/

namespace CourtViewer

/-! ## String utilities (models of the JS string operations used) -/

/-- Word character in the sense of the JS regex class `\w` (ASCII). -/
def isWordCh (c : Char) : Bool := c.isAlphanum || c == '_'

/-- Whitespace in the sense of the JS regex class `\s` (the source only ever
meets ASCII whitespace, which `Char.isWhitespace` covers). -/
def isWsCh (c : Char) : Bool := c.isWhitespace

/-- Model of `text.replace(/\s+/g, "")`: drop every whitespace character. -/
def stripWs (s : String) : String := String.mk (s.toList.filter (fun c => !isWsCh c))

/-- Model of `String.prototype.trim`: drop whitespace from both ends. -/
def jsTrim (s : String) : String :=
  String.mk (((s.toList.dropWhile isWsCh).reverse.dropWhile isWsCh).reverse)

/-- Containment of `pat` in `l` (used for `String.prototype.includes`). -/
def listContains (pat : List Char) : List Char → Bool
  | [] => pat.isPrefixOf ([] : List Char)
  | c :: cs => pat.isPrefixOf (c :: cs) || listContains pat cs

/-- Model of `s.includes(pat)` (case sensitive). -/
def strContains (s pat : String) : Bool := listContains pat.toList s.toList

/-- Case-insensitive containment, for regexes of the shape `/word/i`. -/
def strContainsCI (s pat : String) : Bool :=
  listContains (pat.toList.map Char.toLower) (s.toList.map Char.toLower)

/-- Model of `s.endsWith("#")`. -/
def endsWithHash (s : String) : Bool :=
  match s.toList.reverse with
  | '#' :: _ => true
  | [] => false
  | _ :: _ => false

/-- JS truthiness of a `string | null` value: `null` and `""` are falsy. -/
def truthy : Option String → Bool
  | none => false
  | some s => s ≠ ""

/-- Number denoted by a list of decimal digits. -/
def digitsToNat (ds : List Char) : Nat :=
  ds.foldl (fun acc c => acc * 10 + (c.toNat - '0'.toNat)) 0

/-- Model of `parseInt(s, 10)` on the strings the source feeds it: the longest
leading run of decimal digits, `none` when there is none (`NaN`). -/
def jsParseInt (s : String) : Option Nat :=
  let ds := s.toList.takeWhile Char.isDigit
  if ds.isEmpty then none else some (digitsToNat ds)

/-- Split a character list at every occurrence of `sep`
(model of `String.prototype.split`). -/
def splitOnCh (sep : Char) : List Char → List (List Char)
  | [] => [[]]
  | c :: cs =>
    let rest := splitOnCh sep cs
    if c == sep then
      [] :: rest
    else
      match rest with
      | [] => [[c]]
      | r :: rs => (c :: r) :: rs

/-- Model of `s.split(sep)` producing strings. -/
def jsSplit (sep : Char) (s : String) : List String :=
  (splitOnCh sep s.toList).map String.mk

/-- Model of `s.toUpperCase()` restricted to ASCII (all uses are on `AM`/`PM`
matches). -/
def toUpperStr (s : String) : String := String.mk (s.toList.map Char.toUpper)

/-- Left-pad a number to two digits, as `String(n).padStart(2, "0")`. -/
def pad2 (n : Nat) : String := if n < 10 then "0" ++ toString n else toString n

/-! ## Dates

JS `Date` values are embedded as local calendar components.  All dates the
scraper constructs have zero seconds and milliseconds, and `now` is truncated
with `setHours(0,0,0,0)` before any comparison, so components down to the
minute (plus a constant-zero seconds field used for formatting) suffice.
`Date` comparison (`>=` via epoch milliseconds) is order-isomorphic to the
lexicographic order on components, which `JSDate.key` realises. -/

structure JSDate where
  year : Nat
  month : Nat
  day : Nat
  hour : Nat
  minute : Nat
  second : Nat
deriving DecidableEq, Repr

/-- Linearisation of the component order; on the in-range components the
parsers produce (`month ≤ 12`, `day ≤ 31`, `hour ≤ 23`, `minute, second ≤ 59`)
it is order-isomorphic to the epoch-milliseconds order used by `>=` in JS. -/
def JSDate.key (d : JSDate) : Nat :=
  ((((d.year * 13 + d.month) * 32 + d.day) * 24 + d.hour) * 60 + d.minute) * 60 + d.second

/-- Model of `parsed >= now` on `Date`s. -/
def dateLe (a b : JSDate) : Bool := a.key ≤ b.key

/-- Model of `now.setHours(0, 0, 0, 0)`. -/
def midnightOf (d : JSDate) : JSDate :=
  { d with hour := 0, minute := 0, second := 0 }

def isLeapYear (y : Nat) : Bool :=
  y % 4 == 0 && (y % 100 != 0 || y % 400 == 0)

def daysInMonth (y m : Nat) : Nat :=
  if m = 2 then (if isLeapYear y then 29 else 28)
  else if m = 4 || m = 6 || m = 9 || m = 11 then 30
  else 31

/-- Model of the source's round-trip validation through `Date` construction:
`new Date(year, month - 1, day)` normalises out-of-range fields onto a
different calendar date (e.g. Feb 30 becomes Mar 2), so comparing
`getFullYear/getMonth/getDate` with the inputs succeeds exactly when the
components denote a real calendar date.  (The `year < 100 ↦ 1900 + year`
constructor quirk never fires: the parsers map two-digit years to 1950–2049
before construction.) -/
def dateComponentsValid (y m d : Nat) : Bool :=
  1 ≤ m && m ≤ 12 && 1 ≤ d && d ≤ daysInMonth y m

/-- Round-trip validation for date-times: `new Date(y, m-1, d, hh, mm, 0)`
normalises an out-of-range time onto another moment, so the source's
`getHours/getMinutes` comparison additionally demands `hh ≤ 23 ∧ mm ≤ 59`. -/
def dateTimeComponentsValid (y m d hh mm : Nat) : Bool :=
  dateComponentsValid y m d && hh ≤ 23 && mm ≤ 59

/-- Two-digit year resolution of `parseUSDate`/`parseUSDateTime`:
`if (year < 100) year += year < 50 ? 2000 : 1900`. -/
def resolveYear (y : Nat) : Nat :=
  if y < 100 then (if y < 50 then y + 2000 else y + 1900) else y

/-- Model of `parseUSDate` (scraper.ts): split on `/`, `parseInt` each part,
resolve two-digit years, validate by round-tripping through `Date`. -/
def parseUSDate (dateStr : String) : Option JSDate :=
  match jsSplit '/' dateStr with
  | [p0, p1, p2] =>
    match jsParseInt p0, jsParseInt p1, jsParseInt p2 with
    | some month, some day, some year0 =>
      let year := resolveYear year0
      if dateComponentsValid year month day then
        some ⟨year, month, day, 0, 0, 0⟩
      else none
    | _, _, _ => none
  | _ => none

/-- Model of `parseUSDateTime` (scraper.ts): date part as `parseUSDate`, time
part split on `:`, 12-hour clock resolved through the meridiem, validated by
round-tripping through `Date`. -/
def parseUSDateTime (dateStr timeStr meridiem : String) : Option JSDate :=
  match jsSplit '/' dateStr with
  | [p0, p1, p2] =>
    match jsParseInt p0, jsParseInt p1, jsParseInt p2 with
    | some month, some day, some year0 =>
      let year := resolveYear year0
      match jsSplit ':' timeStr with
      | [t0, t1] =>
        match jsParseInt t0, jsParseInt t1 with
        | some hours0, some minutes =>
          let hours :=
            if toUpperStr meridiem == "PM" && hours0 ≠ 12 then hours0 + 12
            else if toUpperStr meridiem == "AM" && hours0 == 12 then 0
            else hours0
          if dateTimeComponentsValid year month day hours minutes then
            some ⟨year, month, day, hours, minutes, 0⟩
          else none
        | _, _ => none
      | _ => none
    | _, _, _ => none
  | _ => none

/-- Model of `formatISODateTime` (scraper.ts). -/
def formatISODateTime (d : JSDate) : String :=
  toString d.year ++ "-" ++ pad2 d.month ++ "-" ++ pad2 d.day ++ "T" ++
    pad2 d.hour ++ ":" ++ pad2 d.minute ++ ":" ++ pad2 d.second

/-! ## Regex scanners

Each JS regex of the source is realised as a deterministic scanner.  In every
pattern a greedy digit group (`\d{1,2}`, `\d{2,4}`, …) is followed by a
non-digit requirement (`/`, `:`, whitespace or a word boundary), so the group
must consume an entire maximal digit run and the scan never needs general
backtracking; a run longer than the group's maximum makes the match fail at
that start position, exactly as the regex engine does. -/

/-- Length of the maximal leading digit run. -/
def digitRun : List Char → Nat
  | [] => 0
  | c :: cs => if c.isDigit then digitRun cs + 1 else 0

/-- Word boundary `\b` after a digit group: the next character is not a word
character (or the string ends). -/
def boundaryAfter : List Char → Bool
  | [] => true
  | c :: _ => !isWordCh c

/-- Match `(\d{1,2}\/\d{1,2}\/\d{2,4})` at the head of `cs`; on success,
return the consumed characters and the rest. -/
def matchSlashDateCore (cs : List Char) : Option (List Char × List Char) :=
  let r1 := digitRun cs
  if r1 = 0 || r1 > 2 then none else
  match cs.drop r1 with
  | '/' :: cs2 =>
    let r2 := digitRun cs2
    if r2 = 0 || r2 > 2 then none else
    (match cs2.drop r2 with
     | '/' :: cs4 =>
       let r3 := digitRun cs4
       if r3 < 2 || r3 > 4 then none else
       some (cs.take r1 ++ '/' :: cs2.take r2 ++ '/' :: cs4.take r3, cs4.drop r3)
     | _ => none)
  | _ => none

/-- First match of `/\b(\d{1,2}\/\d{1,2}\/\d{2,4})\b/` scanning left to right.
The boolean argument records whether the previous character was a non-word
character (so a `\b` holds before the current position). -/
def findSlashDateAux : List Char → Bool → Option String
  | [], _ => none
  | c :: cs, atB =>
    (if atB then
      match matchSlashDateCore (c :: cs) with
      | some (consumed, rest) =>
        if boundaryAfter rest then some (String.mk consumed) else findSlashDateAux cs (!isWordCh c)
      | none => findSlashDateAux cs (!isWordCh c)
    else findSlashDateAux cs (!isWordCh c))

/-- Model of `text.match(/\b(\d{1,2}\/\d{1,2}\/\d{2,4})\b/)`. -/
def findSlashDateMatch (s : String) : Option String :=
  findSlashDateAux s.toList true

/-- All matches of `/\b\d{1,2}\/\d{1,2}\/\d{2,4}\b/g` (the strategy-3 body
scan): after a match the scan resumes right after it, as with `lastIndex`.
The fuel is the length of the remaining list, which each step decreases. -/
def allSlashDatesAux : Nat → List Char → Bool → List String
  | 0, _, _ => []
  | _ + 1, [], _ => []
  | fuel + 1, c :: cs, atB =>
    (if atB then
      match matchSlashDateCore (c :: cs) with
      | some (consumed, rest) =>
        if boundaryAfter rest then
          String.mk consumed :: allSlashDatesAux fuel rest false
        else allSlashDatesAux fuel cs (!isWordCh c)
      | none => allSlashDatesAux fuel cs (!isWordCh c)
    else allSlashDatesAux fuel cs (!isWordCh c))

/-- Model of `bodyText.match(/\b\d{1,2}\/\d{1,2}\/\d{2,4}\b/g)` as a list
(`null` becomes `[]`). -/
def allSlashDateMatches (s : String) : List String :=
  allSlashDatesAux s.toList.length s.toList true

/-- Match `\s+` (one or more whitespace characters) at the head. -/
def matchWsPlus (cs : List Char) : Option (List Char) :=
  match cs with
  | c :: rest => if isWsCh c then some (rest.dropWhile isWsCh) else none
  | [] => none

/-- Match the time-and-meridiem tail `(\d{1,2}:\d{2})\s*(AM|PM)\b` at the
head; returns (time group, meridiem group as matched, rest). -/
def matchTimeMeridiem (cs : List Char) : Option (String × String × List Char) :=
  let rh := digitRun cs
  if rh = 0 || rh > 2 then none else
  match cs.drop rh with
  | ':' :: cs2 =>
    let rm := digitRun cs2
    if rm ≠ 2 then none else
    let afterTime := cs2.drop 2
    let afterWs := afterTime.dropWhile isWsCh
    (match afterWs with
     | a :: m :: rest =>
       if (a.toLower == 'a' || a.toLower == 'p') && m.toLower == 'm' && boundaryAfter rest then
         some (String.mk (cs.take rh ++ ':' :: cs2.take 2), String.mk [a, m], rest)
       else none
     | _ => none)
  | _ => none

/-- Match the full
`(\d{1,2}\/\d{1,2}\/\d{2,4})\s+(\d{1,2}:\d{2})\s*(AM|PM)\b` at the head,
returning the three groups. -/
def matchDateTimeCore (cs : List Char) : Option (String × String × String) :=
  match matchSlashDateCore cs with
  | some (dateChars, rest) =>
    (match matchWsPlus rest with
     | some rest2 =>
       (match matchTimeMeridiem rest2 with
        | some (timeStr, mer, _) => some (String.mk dateChars, timeStr, mer)
        | none => none)
     | none => none)
  | none => none

/-- First match of
`/\b(\d{1,2}\/\d{1,2}\/\d{2,4})\s+(\d{1,2}:\d{2})\s*(AM|PM)\b/i`. -/
def findDateTimeAux : List Char → Bool → Option (String × String × String)
  | [], _ => none
  | c :: cs, atB =>
    (if atB then
      match matchDateTimeCore (c :: cs) with
      | some groups => some groups
      | none => findDateTimeAux cs (!isWordCh c)
    else findDateTimeAux cs (!isWordCh c))

/-- Model of the cell match against the date-time pattern. -/
def findDateTimeMatch (s : String) : Option (String × String × String) :=
  findDateTimeAux s.toList true

/-- Three-letter month abbreviations, lower case, in month order. -/
def monthAbbrevs : List (List Char) :=
  [['j','a','n'], ['f','e','b'], ['m','a','r'], ['a','p','r'], ['m','a','y'],
   ['j','u','n'], ['j','u','l'], ['a','u','g'], ['s','e','p'], ['o','c','t'],
   ['n','o','v'], ['d','e','c']]

/-- Month number (1–12) when the lowered characters start with a month
abbreviation. -/
def monthFromAbbrev (cs : List Char) : Option Nat :=
  let lowered := cs.map Char.toLower
  (monthAbbrevs.findIdx? (fun ab => ab.isPrefixOf lowered)).map (· + 1)

/-- Match
`((?:Jan|...|Dec)\w*\s+\d{1,2},?\s+\d{4})` at the head (the `/i` pattern of
the month-name cell format); returns the captured characters.  `\w*` is
greedy and followed by `\s+`, so it must consume the whole word-character
run. -/
def matchMonthNameCore (cs : List Char) : Option (List Char) :=
  match monthFromAbbrev cs with
  | none => none
  | some _ =>
    let wordRun := cs.takeWhile isWordCh
    let afterWord := cs.drop wordRun.length
    match matchWsPlus afterWord with
    | none => none
    | some afterWs1 =>
      let rd := digitRun afterWs1
      if rd = 0 || rd > 2 then none else
      let afterDay := afterWs1.drop rd
      let afterComma := match afterDay with
        | ',' :: rest => rest
        | _ => afterDay
      match matchWsPlus afterComma with
      | none => none
      | some afterWs2 =>
        let ry := digitRun afterWs2
        if ry ≠ 4 then none else
        if boundaryAfter (afterWs2.drop 4) then
          let wsCount1 := afterWord.length - afterWs1.length
          let commaCount := afterDay.length - afterComma.length
          let wsCount2 := afterComma.length - afterWs2.length
          some (cs.take (wordRun.length + wsCount1 + rd + commaCount + wsCount2 + 4))
        else none

/-- One subtlety of the `,?` and `\s+` interplay: `"May 1, 2025"` and
`"May 1 2025"` both match; `"May 1,2025"` does not (the regex demands
whitespace after the optional comma), and neither does the scanner. -/
def findMonthNameAux : List Char → Bool → Option String
  | [], _ => none
  | c :: cs, atB =>
    (if atB then
      match matchMonthNameCore (c :: cs) with
      | some captured => some (String.mk captured)
      | none => findMonthNameAux cs (!isWordCh c)
    else findMonthNameAux cs (!isWordCh c))

/-- Model of the cell match against the month-name pattern
`/\b((?:Jan|Feb|Mar|Apr|May|Jun|Jul|Aug|Sep|Oct|Nov|Dec)\w*\s+\d{1,2},?\s+\d{4})\b/i`. -/
def findMonthNameMatch (s : String) : Option String :=
  findMonthNameAux s.toList true

/-- Normalization `MakeDay` applies to a day past the month's end, for day
values at most 31: the overflow is at most `31 - 28 = 3` days, so at most one
rollover into the following month is ever needed (every month has at least
28 days). -/
def normalizeDayOverflow (y m d : Nat) : JSDate :=
  if d ≤ daysInMonth y m then ⟨y, m, d, 0, 0, 0⟩
  else if m = 12 then ⟨y + 1, 1, d - daysInMonth y m, 0, 0, 0⟩
  else ⟨y, m + 1, d - daysInMonth y m, 0, 0, 0⟩

/-- Model of `new Date(monthNameString)` on the strings produced by the
month-name pattern: V8's legacy parser resolves the month from the leading
month word and reads the day and the four-digit year.  The day is validated
only against the range 1–31; a day past the month's end is then normalized
into the following month by `MakeDay` (`"February 30, 2025"` parses to
March 2 2025).  Midnight local time results. -/
def jsParseMonthNameDate (s : String) : Option JSDate :=
  let cs := s.toList
  match monthFromAbbrev cs with
  | none => none
  | some month =>
    let afterWord := cs.dropWhile isWordCh
    let afterWs1 := afterWord.dropWhile isWsCh
    let dayDigits := afterWs1.takeWhile Char.isDigit
    if dayDigits.isEmpty then none else
    let day := digitsToNat dayDigits
    let afterDay := afterWs1.drop dayDigits.length
    let afterComma := match afterDay with
      | ',' :: rest => rest
      | _ => afterDay
    let yearDigits := (afterComma.dropWhile isWsCh).takeWhile Char.isDigit
    if yearDigits.length ≠ 4 then none else
    let year := digitsToNat yearDigits
    if 1 ≤ day && day ≤ 31 then
      some (normalizeDayOverflow year month day)
    else none

/-- Match `(\d{4}-\d{2}-\d{2})` at the head: each group is followed by a
non-digit (`-` or `\b`), so every digit run must be exact. -/
def matchIsoCore (cs : List Char) : Option (List Char) :=
  if digitRun cs ≠ 4 then none else
  match cs.drop 4 with
  | '-' :: cs2 =>
    if digitRun cs2 ≠ 2 then none else
    (match cs2.drop 2 with
     | '-' :: cs4 =>
       if digitRun cs4 ≠ 2 then none else
       if boundaryAfter (cs4.drop 2) then
         some (cs.take 4 ++ '-' :: cs2.take 2 ++ '-' :: cs4.take 2)
       else none
     | _ => none)
  | _ => none

def findIsoAux : List Char → Bool → Option String
  | [], _ => none
  | c :: cs, atB =>
    (if atB then
      match matchIsoCore (c :: cs) with
      | some captured => some (String.mk captured)
      | none => findIsoAux cs (!isWordCh c)
    else findIsoAux cs (!isWordCh c))

/-- Model of the cell match against `/\b(\d{4}-\d{2}-\d{2})\b/`. -/
def findIsoMatch (s : String) : Option String :=
  findIsoAux s.toList true

/-- Model of `new Date(iso + "T00:00:00")` on `\d{4}-\d{2}-\d{2}` strings:
V8 accepts a month in 01–12 and a day in 01–31 and normalizes a day past the
month's end via `MakeDay` (`"2025-02-29T00:00:00"` parses to March 1 2025);
a month or day outside those ranges yields an invalid date.  Midnight local
time results. -/
def parseIsoDate (s : String) : Option JSDate :=
  match s.toList with
  | [y1, y2, y3, y4, '-', m1, m2, '-', d1, d2] =>
    if [y1, y2, y3, y4, m1, m2, d1, d2].all Char.isDigit then
      let year := digitsToNat [y1, y2, y3, y4]
      let month := digitsToNat [m1, m2]
      let day := digitsToNat [d1, d2]
      if 1 ≤ month && month ≤ 12 && 1 ≤ day && day ≤ 31 then
        some (normalizeDayOverflow year month day)
      else none
    else none
  | _ => none

/-- Model of `CASE_ID_PATTERN.test`, the pattern being
`/[0-9A-Z]{3}-\d{2}-\d{5}[A-Z]{2}/i` (containment anywhere; all groups are
fixed length, so the test is a simple positional scan). -/
def caseIdShapeAt (cs : List Char) : Bool :=
  match cs with
  | a :: b :: c :: '-' :: d :: e :: '-' :: f :: g :: h :: i :: j :: k :: l :: _ =>
    [a, b, c].all (fun x => x.isDigit || x.isAlpha) &&
    [d, e, f, g, h, i, j].all Char.isDigit &&
    [k, l].all Char.isAlpha
  | _ => false

def caseIdPatternAux : List Char → Bool
  | [] => false
  | c :: cs => caseIdShapeAt (c :: cs) || caseIdPatternAux cs

def caseIdPatternTest (s : String) : Bool := caseIdPatternAux s.toList

/-- Model of `/search\s*cases/i.test(text)`: somewhere in the text, `search`
followed by optional whitespace followed by `cases`, case-insensitively. -/
def searchCasesAt (cs : List Char) : Bool :=
  ['s','e','a','r','c','h'].isPrefixOf cs &&
    ['c','a','s','e','s'].isPrefixOf ((cs.drop 6).dropWhile isWsCh)

def searchCasesAux : List Char → Bool
  | [] => false
  | c :: cs => searchCasesAt (c :: cs) || searchCasesAux cs

def searchCasesTest (s : String) : Bool :=
  searchCasesAux (s.toList.map Char.toLower)

/-- Model of the heading keyword test `/event|hearing|calendar|schedule/i`. -/
def headingKeywordTest (s : String) : Bool :=
  strContainsCI s "event" || strContainsCI s "hearing" ||
    strContainsCI s "calendar" || strContainsCI s "schedule"

/-! ## Document model

A `Page` records exactly the observations the content script makes of the
DOM: selector hits and the text contents of the element families it queries.
All fields default to the empty observation so concrete example pages can
name only what they use. -/

/-- An anchor element as observed by the scraper: its `textContent` (`""` for
null), its `href` (`""` when absent) and whether
`closest("table, .searchResults, .results")` finds a container. -/
structure PageLink where
  text : String := ""
  href : String := ""
  inResultsContainer : Bool := false
deriving DecidableEq, Repr

/-- A button or submit input: its `value` and `textContent`. -/
structure PageButton where
  value : String := ""
  text : String := ""
deriving DecidableEq, Repr

/-- A heading-like element (`h1..h6, .sectionHeader, legend, th, caption`):
its text and the cell texts of the table `findNearestTable` locates for it
(`none` when that walk finds no table). -/
structure PageHeading where
  text : String := ""
  nearTable : Option (List String) := none
deriving DecidableEq, Repr

structure Page where
  /-- `document.querySelector('input[name="caseDscr"]')` finds an element. -/
  hasCaseDscrInput : Bool := false
  /-- `document.body.textContent` (`""` for null). -/
  bodyText : String := ""
  /-- All `<a>` elements of the document, in document order. -/
  anchors : List PageLink := []
  /-- All `input[type=submit], input[type=button], button` elements. -/
  buttons : List PageButton := []
  /-- The search submit control
  (`input[name="submitLink"][value="Search"]` or
  `div.formButtons input[type="submit"]`) exists. -/
  hasSubmitButton : Bool := false
  /-- The `<a>` elements under `#mainContent` (or `body` as fallback), the
  search root of `findCaseDetailLinks`. -/
  resultLinks : List PageLink := []
  /-- Text of the first
  `.feedback .feedbackPanelERROR, .feedbackPanelERROR, .feedbackPanelWARNING`
  element, when one exists. -/
  errorBanner : Option String := none
  /-- The heading-like elements, paired with their `findNearestTable` result. -/
  headings : List PageHeading := []
  /-- Cell texts (`td, th`) of every table under `#mainContent` (or `body`),
  one list per table, for strategy 2. -/
  tables : List (List String) := []
  /-- `textContent` of `#mainContent` (or `body`), for strategy 3. -/
  mainText : String := ""
  /-- Every element's trimmed-to-be text content in document order
  (`document.querySelectorAll("*")`), for party extraction. -/
  allElementTexts : List String := []
deriving DecidableEq, Repr

/-! ## Page classification (`detectPageType`) -/

inductive PageType where
  | welcome
  | searchHome
  | searchResults
  | caseProfile
  | unknown
deriving DecidableEq, Repr

/-- Model of `hasSearchCasesLink`: an anchor whose text matches
`/search\s*cases/i`, or an anchor whose truthy `href` matches
`/search\.page/i`, or a button whose `value || textContent` matches
`/search\s*cases/i`. -/
def hasSearchCasesLink (p : Page) : Bool :=
  p.anchors.any (fun a => searchCasesTest a.text) ||
  p.anchors.any (fun a => a.href ≠ "" && strContainsCI a.href "search.page") ||
  p.buttons.any (fun b => searchCasesTest (if b.value ≠ "" then b.value else b.text))

/-- Model of `detectPageType`: the checks run in the fixed source order. -/
def detectPageType (p : Page) : PageType :=
  if p.hasCaseDscrInput then .searchHome
  else if strContains p.bodyText "Case Type:" then .caseProfile
  else if strContains p.bodyText "Search Results" then .searchResults
  else if hasSearchCasesLink p then .welcome
  else .unknown

/-! ## Scrape state -/

structure ScrapeData where
  nextCourtDateTime : Option String
  prosecutor : Option String
  defendant : Option String
deriving DecidableEq, Repr

inductive ScrapeState where
  | running (caseId : String)
  | succeeded (caseId : String) (data : ScrapeData)
  | errored (caseId : String) (error : String)
  | noCaseFound (caseId : String)
deriving DecidableEq, Repr

def ScrapeState.caseId : ScrapeState → String
  | .running c => c
  | .succeeded c _ => c
  | .errored c _ => c
  | .noCaseFound c => c

/-- The source's `state.state === "running"` check. -/
def ScrapeState.isRunning : ScrapeState → Bool
  | .running _ => true
  | _ => false

/-! ## Welcome and search-form handlers -/

/-- Model of `gotoSearchPage`: the three click strategies in order; throws
when no `Search Cases` link or button exists.  (Which element gets clicked is
irrelevant to the claims; only success or failure is recorded.) -/
def gotoSearchPage (p : Page) : Except String Unit :=
  if p.anchors.any (fun a => searchCasesTest a.text) then .ok ()
  else if p.anchors.any (fun a => a.href ≠ "" && strContainsCI a.href "search.page") then .ok ()
  else if p.buttons.any (fun b => searchCasesTest (if b.value ≠ "" then b.value else b.text)) then .ok ()
  else .error "Could not find \x27Search Cases\x27 link or button on welcome page."

/-- Model of `handleFillAndSearch`: throws when the case input or the submit
button is missing, otherwise fills and submits. -/
def handleFillAndSearch (p : Page) : Except String Unit :=
  if !p.hasCaseDscrInput then
    .error "Could not find case number input (name=\x27caseDscr\x27)."
  else if !p.hasSubmitButton then
    .error "Could not find the search submit button."
  else .ok ()

/-! ## Results-listing handling -/

/-- Model of `findCaseDetailLinks`.  Contrary to its source doc comment the
function never returns `null`: it returns `[]` when the "No Records Found"
message is present, and otherwise the links under the search root whose
whitespace-stripped text matches the case-id pattern and which pass the
href/container heuristics, each paired with that stripped text (the
`caseId` of the result entry). -/
def findCaseDetailLinks (p : Page) : List (String × PageLink) :=
  if strContains p.bodyText "No Records Found" then []
  else
    p.resultLinks.filterMap (fun l =>
      let linkText := stripWs l.text
      if caseIdPatternTest linkText then
        if l.href ≠ "" && l.href ≠ "#" && !endsWithHash l.href && l.inResultsContainer then
          some (linkText, l)
        else none
      else none)

inductive OnceOutcome where
  | clicked (link : PageLink)
  | noCase
  | failed (msg : String)
deriving DecidableEq, Repr

/-- Model of one `clickToCaseProfileOnce` attempt.  (The source's
`links === null` throw is unreachable because `findCaseDetailLinks` always
returns an array.) -/
def clickToCaseProfileOnce (caseId : String) (p : Page) : OnceOutcome :=
  let links := findCaseDetailLinks p
  if links.isEmpty then .noCase
  else
    match links.filter (fun l => l.1 == caseId) with
    | [] => .failed "No cases found matching search criteria."
    | m :: _ => .clicked m.2

inductive ClickOutcome where
  | succeeded (link : PageLink)
  | noCaseFound
deriving DecidableEq, Repr

/-- Model of `clickToCaseProfile`, which polls `clickToCaseProfileOnce` every
500 ms for up to 30 s, swallowing its exceptions.  Against an unchanging
document every retry behaves identically, so a failing attempt settles into
the loop's own timeout error. -/
def clickToCaseProfile (caseId : String) (p : Page) : Except String ClickOutcome :=
  match clickToCaseProfileOnce caseId p with
  | .clicked l => .ok (.succeeded l)
  | .noCase => .ok .noCaseFound
  | .failed _ => .error "Timed out waiting for search results to load."

/-! ## Party extraction (`extractCaseParties`) -/

/-- Suffix test and capture for `^(.+?)\s*-\s*Word\s*$` with `/i` (`Word` is
`Defendant` or `Prosecution`): the remainder after a split point must be
optional whitespace, a dash, optional whitespace, the word, optional
whitespace, end of string. -/
def partySuffixAt (word : List Char) (cs : List Char) : Bool :=
  match (cs.map Char.toLower).dropWhile isWsCh with
  | '-' :: rest =>
    let rest2 := rest.dropWhile isWsCh
    word.isPrefixOf rest2 && (rest2.drop word.length).all isWsCh
  | _ => false

/-- Lazy capture of `^(.+?)\s*-\s*Word\s*$`: the shortest non-empty prefix
whose remainder matches the suffix pattern, trimmed (mirroring
`match[1].trim()`); `none` when no split point works, in which case the
source leaves the field untouched (this covers the `test`-passes-but-
`match`-fails corner such as `"- Defendant"`).  The capture may not contain
a line terminator: `.` does not match `\n`/`\r`, so elements whose text spans
lines never set a field. -/
def matchPartySuffix (word : List Char) (t : String) : Option String :=
  let cs := t.toList
  match (List.range (cs.length + 1)).filter
      (fun i => decide (0 < i) &&
        (cs.take i).all (fun c => c ≠ '\n' && c ≠ '\r') &&
        partySuffixAt word (cs.drop i)) with
  | [] => none
  | i :: _ => some (jsTrim (String.mk (cs.take i)))

/-- The element loop of `extractCaseParties`: each element's trimmed text is
tried against the defendant pattern and then the prosecutor pattern; the
loop breaks as soon as both fields are truthy.  Returns
(prosecutor, defendant), matching the source's result object. -/
def extractPartiesLoop : List String → Option String → Option String →
    Option String × Option String
  | [], pros, defd => (pros, defd)
  | t :: rest, pros, defd =>
    let text := jsTrim t
    let defd2 := match matchPartySuffix ['d','e','f','e','n','d','a','n','t'] text with
      | some nm => some nm
      | none => defd
    let pros2 := match matchPartySuffix
        ['p','r','o','s','e','c','u','t','i','o','n'] text with
      | some nm => some nm
      | none => pros
    if truthy pros2 && truthy defd2 then (pros2, defd2)
    else extractPartiesLoop rest pros2 defd2

/-- Interpolation of a `string | null` into a template literal. -/
def showNullable : Option String → String
  | none => "null"
  | some s => s

/-- The failure message `extractCaseParties` throws. -/
def partiesFailMsg (caseId : String) (pros defd : Option String) : String :=
  "Failed to extract case parties for case " ++ caseId ++ ": prosecutor=\"" ++
    showNullable pros ++ "\", defendant=\"" ++ showNullable defd ++ "\""

/-- Model of `extractCaseParties`: succeeds only when both fields are truthy,
otherwise throws. -/
def extractCaseParties (caseId : String) (p : Page) :
    Except String (Option String × Option String) :=
  let r := extractPartiesLoop p.allElementTexts none none
  if truthy r.1 && truthy r.2 then .ok r
  else .error (partiesFailMsg caseId r.1 r.2)

/-! ## Next-court-date extraction (`findNextCourtDateTime`) -/

/-- Model of the per-cell body of `extractDatesFromTable`: the four date
patterns are tried in order on the trimmed cell text; the first pattern that
matches ends the cell's processing (`continue`) even when its parse fails or
the date is in the past.  The returned list is the cell's contribution to
`futureDates`. -/
def extractDatesFromCell (now : JSDate) (cellText : String) : List JSDate :=
  let text := jsTrim cellText
  match findDateTimeMatch text with
  | some (ds, ts, mer) =>
    (match parseUSDateTime ds ts mer with
     | some d => if dateLe now d then [d] else []
     | none => [])
  | none =>
  match findSlashDateMatch text with
  | some ds =>
    (match parseUSDate ds with
     | some d => if dateLe now d then [d] else []
     | none => [])
  | none =>
  match findMonthNameMatch text with
  | some ms =>
    (match jsParseMonthNameDate ms with
     | some d => if dateLe now d then [d] else []
     | none => [])
  | none =>
  match findIsoMatch text with
  | some iso =>
    (match parseIsoDate iso with
     | some d => if dateLe now d then [d] else []
     | none => [])
  | none => []

/-- Model of `extractDatesFromTable` over one table's cells. -/
def extractDatesFromTable (now : JSDate) (cells : List String) : List JSDate :=
  cells.flatMap (extractDatesFromCell now)

/-- Strategy 1: tables near keyword headings. -/
def strategy1Dates (now : JSDate) (p : Page) : List JSDate :=
  p.headings.flatMap (fun h =>
    if headingKeywordTest h.text then
      match h.nearTable with
      | some cells => extractDatesFromTable now cells
      | none => []
    else [])

/-- Strategy 2: every table under the search root, unscoped. -/
def strategy2Dates (now : JSDate) (p : Page) : List JSDate :=
  p.tables.flatMap (extractDatesFromTable now)

/-- Strategy 3: loose `MM/DD/YY(YY)` patterns over the whole text. -/
def strategy3Dates (now : JSDate) (p : Page) : List JSDate :=
  (allSlashDateMatches p.mainText).flatMap (fun m =>
    match parseUSDate m with
    | some d => if dateLe now d then [d] else []
    | none => [])

/-- Folding step for the earliest date: the source sorts `futureDates` by
`getTime` ascending (a stable sort) and takes element 0, which is the first
pushed among the minimal ones; the fold keeps the earlier element on ties. -/
def minD (a b : JSDate) : JSDate := if b.key < a.key then b else a

/-- First element of a nonempty fold; `head` is the seed. -/
def earliestDate (d0 : JSDate) (rest : List JSDate) : JSDate :=
  rest.foldl minD d0

/-- Model of `findNextCourtDateTime`: `now` is the clock truncated to
midnight; the three strategies run in order, each only when every earlier
one contributed no (future) candidate; the earliest surviving candidate is
formatted, `null` when none survives. -/
def findNextCourtDateTime (now0 : JSDate) (p : Page) : Option String :=
  let now := midnightOf now0
  let fd1 := strategy1Dates now p
  let fd :=
    if fd1.isEmpty then
      let fd2 := strategy2Dates now p
      if fd2.isEmpty then strategy3Dates now p else fd2
    else fd1
  match fd with
  | [] => none
  | d0 :: rest => some (formatISODateTime (earliestDate d0 rest))

/-! ## Case-profile parsing and the step function -/

/-- Model of `parseCasePage`: an error/warning banner throws; otherwise the
date extraction runs (its absence is not an error) and the party extraction
must succeed. -/
def parseCasePage (caseId : String) (now : JSDate) (p : Page) :
    Except String ScrapeData :=
  match p.errorBanner with
  | some t =>
    let tt := jsTrim t
    .error ("Error element found: " ++ (if tt = "" then "Unknown error from court site." else tt))
  | none =>
    let next := findNextCourtDateTime now p
    match extractCaseParties caseId p with
    | .ok r => .ok { nextCourtDateTime := next, prosecutor := r.1, defendant := r.2 }
    | .error e => .error e

/-- Model of `runScrapeStep` against an unchanging document.  Non-`running`
states return unchanged.  The `unknown` branch of the source sleeps and
re-detects for up to 30 s; on a static page detection never changes, so the
branch settles into its timeout throw. -/
def runScrapeStep (startingState : ScrapeState) (now : JSDate) (p : Page) :
    Except String ScrapeState :=
  match startingState with
  | .running caseId =>
    (match detectPageType p with
     | .welcome =>
       (match gotoSearchPage p with
        | .ok _ => .ok (.running caseId)
        | .error e => .error e)
     | .searchHome =>
       (match handleFillAndSearch p with
        | .ok _ => .ok (.running caseId)
        | .error e => .error e)
     | .searchResults =>
       (match clickToCaseProfile caseId p with
        | .ok (.succeeded _) => .ok (.running caseId)
        | .ok .noCaseFound => .ok (.noCaseFound caseId)
        | .error e => .error e)
     | .caseProfile =>
       (match parseCasePage caseId now p with
        | .ok data => .ok (.succeeded caseId data)
        | .error e => .error e)
     | .unknown => .error "Timed out waiting for page to load into a known state.")
  | st => .ok st

/-- Model of `runStepWithIoErrorHandling`: with no persisted state the step
does nothing; otherwise the step's result — or, for any thrown failure, an
`errored` state carrying the failure message — is stored to session storage
and reported to the background worker (`setState` does both). -/
def runStepWithIoErrorHandling (activeState : Option ScrapeState) (now : JSDate)
    (p : Page) : Option ScrapeState :=
  match activeState with
  | none => none
  | some st =>
    match runScrapeStep st now p with
    | .ok s => some s
    | .error msg => some (.errored st.caseId msg)

/-! ## Background orchestrator

The background service worker's module state (`jobsByTab`, `tabByCaseId`,
`scrapeQueue`), the case store behind `chrome.storage`, and the externally
visible effects (tabs opened by `chrome.tabs.create`, tabs closed by
`safeCloseTab`) are collected into one `OrchState`.  `Map.set`/`Map.delete`
are modelled on association lists (`setAssoc` overwrites an existing key,
deletion filters the key out).  Tab ids are allocated from the `nextTabId`
counter, standing for the fresh ids Chrome hands out. -/

/-- The orchestrator's constants. -/
def MAX_CONCURRENT : Nat := 3

def JOB_TIMEOUT_MS : Nat := 60000

structure ScrapeJob where
  caseId : String
  tabId : Nat
  keepTabOpen : Bool
  state : ScrapeState
deriving DecidableEq, Repr

/-- A stored case record (`Case` in types.ts); `lastScrape` pairs a
`ScrapeState` with its timestamp. -/
structure Case where
  id : String
  defendantName : String
  prosecutor : Option String
  notes : String
  lastScrape : Option (ScrapeState × String)
  nextCourtDateTime : Option String
deriving DecidableEq, Repr

structure OrchState where
  jobsByTab : List (Nat × ScrapeJob) := []
  tabByCaseId : List (String × Nat) := []
  scrapeQueue : List String := []
  nextTabId : Nat := 0
  tabsOpened : Nat := 0
  closedTabs : List Nat := []
  store : List Case := []
deriving DecidableEq, Repr

/-- Assoc-list lookup (`Map.get`). -/
def lookupAssoc [BEq α] (l : List (α × β)) (k : α) : Option β :=
  (l.find? (fun e => e.1 == k)).map (fun e => e.2)

/-- Assoc-list update (`Map.set`): overwrite the key when present, append
otherwise. -/
def setAssoc [BEq α] (l : List (α × β)) (k : α) (v : β) : List (α × β) :=
  if l.any (fun e => e.1 == k) then
    l.map (fun e => if e.1 == k then (k, v) else e)
  else l ++ [(k, v)]

/-- Assoc-list delete (`Map.delete`). -/
def delAssoc [BEq α] (l : List (α × β)) (k : α) : List (α × β) :=
  l.filter (fun e => !(e.1 == k))

/-- Whether a key is present (`Map.has`). -/
def hasAssoc [BEq α] (l : List (α × β)) (k : α) : Bool :=
  l.any (fun e => e.1 == k)

/-- Model of `cleanupJob`: drop the job's `tabByCaseId` entry (when the job
exists), then the `jobsByTab` entry; the pending timer is cancelled, which
the state does not track. -/
def cleanupJob (s : OrchState) (tabId : Nat) : OrchState :=
  let s1 :=
    match lookupAssoc s.jobsByTab tabId with
    | some job => { s with tabByCaseId := delAssoc s.tabByCaseId job.caseId }
    | none => s
  { s1 with jobsByTab := delAssoc s1.jobsByTab tabId }

/-- The synchronous prefix of `startScrapeForCase`: the `tabByCaseId` dedup
check and, when it passes, the `chrome.tabs.create` call (which opens a tab
immediately; its promise resolves later).  Returns the id of the opened tab,
or `none` when the request was skipped as a duplicate. -/
def startScrapeSyncPhase (s : OrchState) (caseId : String) :
    OrchState × Option Nat :=
  if hasAssoc s.tabByCaseId caseId then (s, none)
  else ({ s with nextTabId := s.nextTabId + 1, tabsOpened := s.tabsOpened + 1 },
        some s.nextTabId)

/-- The continuation of `startScrapeForCase` after `await chrome.tabs.create`
resolves: register the job in `jobsByTab` and `tabByCaseId` and arm the
safety timer. -/
def startScrapeRegisterPhase (s : OrchState) (caseId : String) (tabId : Nat)
    (keepTabOpen : Bool) : OrchState :=
  let job : ScrapeJob :=
    { caseId := caseId, tabId := tabId, keepTabOpen := keepTabOpen,
      state := .running caseId }
  { s with jobsByTab := setAssoc s.jobsByTab tabId job,
           tabByCaseId := setAssoc s.tabByCaseId caseId tabId }

/-- Model of a `startScrapeForCase` call that runs to completion with nothing
interleaved between its check and its registration (and with tab creation
succeeding). -/
def startScrapeForCase (s : OrchState) (caseId : String) (keepTabOpen : Bool) :
    OrchState :=
  match startScrapeSyncPhase s caseId with
  | (s1, some tabId) => startScrapeRegisterPhase s1 caseId tabId keepTabOpen
  | (s1, none) => s1

/-- Register a job for `caseId` on a fresh tab without re-checking the dedup
map (used where the source has already performed its — possibly stale —
check). -/
def registerFresh (s : OrchState) (caseId : String) : OrchState :=
  let tabId := s.nextTabId
  startScrapeRegisterPhase
    { s with nextTabId := s.nextTabId + 1, tabsOpened := s.tabsOpened + 1 }
    caseId tabId false

/-- Model of `processScrapeQueue` together with the eventual completion of
the scrapes it kicks off.  The source loop is

```text
while (scrapeQueue.length > 0 && jobsByTab.size < MAX_CONCURRENT) {
  const nextCaseId = scrapeQueue.shift();
  if (nextCaseId && !tabByCaseId.has(nextCaseId)) startScrapeForCase(nextCaseId);
}
```

`startScrapeForCase` is not awaited, and it registers its job only after
`await chrome.tabs.create` — a continuation that cannot run before this
synchronous loop finishes.  Hence `jobsByTab.size` and `tabByCaseId` are
frozen at their entry values for the whole loop: when the orchestrator is
below the ceiling at entry, the loop shifts the *entire* queue and starts
every queued case that is not active at entry.  This function returns the
state after those deferred registrations have all run. -/
def processScrapeQueueSettled (s : OrchState) : OrchState :=
  if s.scrapeQueue ≠ [] && s.jobsByTab.length < MAX_CONCURRENT then
    let toStart := s.scrapeQueue.filter (fun c => !hasAssoc s.tabByCaseId c)
    toStart.foldl registerFresh { s with scrapeQueue := [] }
  else s

/-- Model of `handleScrapeAll` over the saved case ids, with no foreign
events interleaved: each admission is awaited (so it registers before the
next iteration's checks), cases already active or queued are skipped, and
once `jobsByTab.size` reaches the ceiling the remaining ids are pushed onto
the queue in order. -/
def handleScrapeAll (s : OrchState) (caseIds : List String) : OrchState :=
  caseIds.foldl
    (fun acc c =>
      if hasAssoc acc.tabByCaseId c || acc.scrapeQueue.contains c then acc
      else if acc.jobsByTab.length < MAX_CONCURRENT then
        startScrapeForCase acc c false
      else { acc with scrapeQueue := acc.scrapeQueue ++ [c] })
    s

/-! ## Case-store updates -/

/-- A `Partial<Case>` as the orchestrator builds it: a field is overwritten
exactly when it is present in the updates object. -/
structure CaseUpdates where
  lastScrape : Option (ScrapeState × String) := none
  nextCourtDateTime : Option (Option String) := none
  prosecutor : Option (Option String) := none
  defendantName : Option String := none
deriving DecidableEq, Repr

/-- Spread-merge `{ ...case, ...updates }`. -/
def applyUpdates (c : Case) (u : CaseUpdates) : Case :=
  { id := c.id
    defendantName := match u.defendantName with
      | some v => v
      | none => c.defendantName
    prosecutor := match u.prosecutor with
      | some v => v
      | none => c.prosecutor
    notes := c.notes
    lastScrape := match u.lastScrape with
      | some v => some v
      | none => c.lastScrape
    nextCourtDateTime := match u.nextCourtDateTime with
      | some v => v
      | none => c.nextCourtDateTime }

/-- Model of `updateCase` (storage.ts): replace the first record whose id
matches; no record, no change. -/
def updateCase : List Case → String → CaseUpdates → List Case
  | [], _, _ => []
  | c :: rest, id, u =>
    if c.id == id then applyUpdates c u :: rest
    else c :: updateCase rest id u

/-- The updates object the `succeeded` branch of `handleScrapeStateChange`
builds: `lastScrape` and `nextCourtDateTime` unconditionally; `prosecutor`
and `defendantName` only when the scraped value is truthy and the existing
field is absent or empty. -/
def succeededUpdates (existingCase : Option Case) (caseId : String)
    (data : ScrapeData) (ts : String) : CaseUpdates :=
  let u : CaseUpdates :=
    { lastScrape := some (.succeeded caseId data, ts)
      nextCourtDateTime := some data.nextCourtDateTime }
  let existingPros : Option String := match existingCase with
    | some c => c.prosecutor
    | none => none
  let existingDefName : String := match existingCase with
    | some c => c.defendantName
    | none => ""
  let u := if truthy data.prosecutor && !truthy existingPros then
      { u with prosecutor := some data.prosecutor }
    else u
  if truthy data.defendant && existingDefName == "" then
    { u with defendantName := match data.defendant with
        | some v => v
        | none => "" }
  else u

/-- The store effect of the `succeeded` branch of
`handleScrapeStateChange`: `getCase` finds the existing record, the updates
object is built from it, `updateCase` merges. -/
def handleSucceededPersist (store : List Case) (caseId : String)
    (data : ScrapeData) (ts : String) : List Case :=
  let existingCase := store.find? (fun c => c.id == caseId)
  updateCase store caseId (succeededUpdates existingCase caseId data ts)

/-- The merged record for an existing case, for stating frame properties. -/
def mergedCase (c : Case) (caseId : String) (data : ScrapeData) (ts : String) :
    Case :=
  applyUpdates c (succeededUpdates (some c) caseId data ts)

/-! ## The per-job safety timeout -/

/-- The updates persisted when a job times out. -/
def timedOutUpdates (caseId ts : String) : CaseUpdates :=
  { lastScrape := some (.errored caseId "Scrape timed out.", ts) }

/-- Model of the safety-timer callback armed by `startScrapeForCase`
(fires `JOB_TIMEOUT_MS` after admission): if the job is still registered and
still `running`, persist an errored "Scrape timed out." outcome, clean the
job up, close its tab — unconditionally, with no `keepTabOpen` check — and
process the queue. -/
def onJobTimeout (s : OrchState) (tabId : Nat) (ts : String) : OrchState :=
  match lookupAssoc s.jobsByTab tabId with
  | none => s
  | some job =>
    if job.state.isRunning then
      let sa := { s with store := updateCase s.store job.caseId (timedOutUpdates job.caseId ts) }
      let sb := cleanupJob sa tabId
      let sc := { sb with closedTabs := sb.closedTabs ++ [tabId] }
      processScrapeQueueSettled sc
    else s

/-! ## Helper lemmas -/

theorem mem_earliestDate (d0 : JSDate) (rest : List JSDate) :
    earliestDate d0 rest ∈ d0 :: rest := by
  induction rest generalizing d0 with
  | nil => simp [earliestDate]
  | cons b bs ih =>
    have hstep : earliestDate d0 (b :: bs) = earliestDate (minD d0 b) bs := rfl
    rw [hstep]
    rcases List.mem_cons.mp (ih (minD d0 b)) with h1 | h1
    · rw [h1]
      unfold minD
      split
      · simp
      · simp
    · simp [h1]

theorem earliestDate_key_le (d0 : JSDate) (rest : List JSDate) :
    ∀ x ∈ d0 :: rest, (earliestDate d0 rest).key ≤ x.key := by
  induction rest generalizing d0 with
  | nil =>
    intro x hx
    simp only [List.mem_singleton] at hx
    simp [earliestDate, hx]
  | cons b bs ih =>
    intro x hx
    have hstep : earliestDate d0 (b :: bs) = earliestDate (minD d0 b) bs := rfl
    rw [hstep]
    have hmin_d0 : (minD d0 b).key ≤ d0.key := by unfold minD; split <;> omega
    have hmin_b : (minD d0 b).key ≤ b.key := by unfold minD; split <;> omega
    have hfold : (earliestDate (minD d0 b) bs).key ≤ (minD d0 b).key :=
      ih (minD d0 b) (minD d0 b) (by simp)
    rcases List.mem_cons.mp hx with h1 | h1
    · rw [h1]
      omega
    · rcases List.mem_cons.mp h1 with h2 | h2
      · rw [h2]
        omega
      · exact ih (minD d0 b) x (by simp [h2])

theorem dateLe_of_mem_extractDatesFromCell (now : JSDate) (t : String) (d : JSDate)
    (hd : d ∈ extractDatesFromCell now t) : dateLe now d = true := by
  simp only [extractDatesFromCell] at hd
  repeat' split at hd
  all_goals simp_all

theorem dateLe_of_mem_extractDatesFromTable (now : JSDate) (cells : List String)
    (d : JSDate) (hd : d ∈ extractDatesFromTable now cells) : dateLe now d = true := by
  unfold extractDatesFromTable at hd
  rcases List.mem_flatMap.mp hd with ⟨c, _, hc⟩
  exact dateLe_of_mem_extractDatesFromCell now c d hc

theorem dateLe_of_mem_strategy1 (now : JSDate) (p : Page) (d : JSDate)
    (hd : d ∈ strategy1Dates now p) : dateLe now d = true := by
  unfold strategy1Dates at hd
  rcases List.mem_flatMap.mp hd with ⟨h, _, hh⟩
  split at hh
  · split at hh
    · exact dateLe_of_mem_extractDatesFromTable now _ d hh
    · simp at hh
  · simp at hh

theorem dateLe_of_mem_strategy2 (now : JSDate) (p : Page) (d : JSDate)
    (hd : d ∈ strategy2Dates now p) : dateLe now d = true := by
  unfold strategy2Dates at hd
  rcases List.mem_flatMap.mp hd with ⟨cells, _, hc⟩
  exact dateLe_of_mem_extractDatesFromTable now cells d hc

theorem dateLe_of_mem_strategy3 (now : JSDate) (p : Page) (d : JSDate)
    (hd : d ∈ strategy3Dates now p) : dateLe now d = true := by
  unfold strategy3Dates at hd
  rcases List.mem_flatMap.mp hd with ⟨m, _, hm⟩
  split at hm
  · split at hm
    · simp_all
    · simp at hm
  · simp at hm

/-! ## Claim C4 -/

/-- C4: `findNextCourtDateTime` runs its three strategies in order, stopping
at the first that contributes a surviving candidate: strategy 2 and 3 run
only when every earlier strategy's surviving-candidate list is empty.  Only
candidates at or after the `asOf` midnight cutoff are kept (last conjunct:
every gathered candidate passed the `parsed >= now` filter), the result is
the earliest (minimum-timestamp) candidate of the first productive strategy,
and the result is absent exactly when no candidate survives anywhere. -/
theorem c4_next_court_date_strategy_order_and_minimum (now0 : JSDate) (p : Page) :
    (findNextCourtDateTime now0 p = none ↔
      strategy1Dates (midnightOf now0) p = [] ∧
      strategy2Dates (midnightOf now0) p = [] ∧
      strategy3Dates (midnightOf now0) p = []) ∧
    (∀ d1 r1, strategy1Dates (midnightOf now0) p = d1 :: r1 →
      findNextCourtDateTime now0 p = some (formatISODateTime (earliestDate d1 r1)) ∧
      earliestDate d1 r1 ∈ d1 :: r1 ∧
      ∀ x ∈ d1 :: r1, (earliestDate d1 r1).key ≤ x.key) ∧
    (∀ d2 r2, strategy1Dates (midnightOf now0) p = [] →
      strategy2Dates (midnightOf now0) p = d2 :: r2 →
      findNextCourtDateTime now0 p = some (formatISODateTime (earliestDate d2 r2)) ∧
      earliestDate d2 r2 ∈ d2 :: r2 ∧
      ∀ x ∈ d2 :: r2, (earliestDate d2 r2).key ≤ x.key) ∧
    (∀ d3 r3, strategy1Dates (midnightOf now0) p = [] →
      strategy2Dates (midnightOf now0) p = [] →
      strategy3Dates (midnightOf now0) p = d3 :: r3 →
      findNextCourtDateTime now0 p = some (formatISODateTime (earliestDate d3 r3)) ∧
      earliestDate d3 r3 ∈ d3 :: r3 ∧
      ∀ x ∈ d3 :: r3, (earliestDate d3 r3).key ≤ x.key) ∧
    (∀ d, d ∈ strategy1Dates (midnightOf now0) p ++ strategy2Dates (midnightOf now0) p ++
        strategy3Dates (midnightOf now0) p → dateLe (midnightOf now0) d = true) := by
  refine ⟨?_, ?_, ?_, ?_, ?_⟩
  · cases h1 : strategy1Dates (midnightOf now0) p with
    | cons a l => simp [findNextCourtDateTime, h1]
    | nil =>
      cases h2 : strategy2Dates (midnightOf now0) p with
      | cons a l => simp [findNextCourtDateTime, h1, h2]
      | nil =>
        cases h3 : strategy3Dates (midnightOf now0) p with
        | cons a l => simp [findNextCourtDateTime, h1, h2, h3]
        | nil => simp [findNextCourtDateTime, h1, h2, h3]
  · intro d1 r1 h1
    exact ⟨by simp [findNextCourtDateTime, h1], mem_earliestDate d1 r1,
      earliestDate_key_le d1 r1⟩
  · intro d2 r2 h1 h2
    exact ⟨by simp [findNextCourtDateTime, h1, h2], mem_earliestDate d2 r2,
      earliestDate_key_le d2 r2⟩
  · intro d3 r3 h1 h2 h3
    exact ⟨by simp [findNextCourtDateTime, h1, h2, h3], mem_earliestDate d3 r3,
      earliestDate_key_le d3 r3⟩
  · intro d hd
    rcases List.mem_append.mp hd with h12 | h3
    · rcases List.mem_append.mp h12 with h1 | h2
      · exact dateLe_of_mem_strategy1 _ p d h1
      · exact dateLe_of_mem_strategy2 _ p d h2
    · exact dateLe_of_mem_strategy3 _ p d h3

/-- Concrete inputs for the C4 witness: a page whose hearings table sits next
to a keyword heading and carries one date-time cell. -/
def c4Now : JSDate := ⟨2025, 1, 1, 12, 0, 0⟩

def c4Page : Page :=
  { headings := [{ text := "Upcoming Hearings",
                   nearTable := some ["01/15/2025 09:00 AM", "courtroom 2"] }],
    tables := [["2025-06-30"]],
    mainText := "also 04/10/2025 inline" }

/-- Witness for C4 at a concrete page: strategy 1 is productive, so the
result is its earliest candidate (and the nonempty-strategy hypothesis is
discharged by evaluation). -/
theorem c4_next_court_date_strategy_order_and_minimum_witness :
    findNextCourtDateTime c4Now c4Page = some "2025-01-15T09:00:00" ∧
    dateLe (midnightOf c4Now) ⟨2025, 1, 15, 9, 0, 0⟩ = true :=
  ⟨((c4_next_court_date_strategy_order_and_minimum c4Now c4Page).2.1
      ⟨2025, 1, 15, 9, 0, 0⟩ [] (by decide)).1,
   (c4_next_court_date_strategy_order_and_minimum c4Now c4Page).2.2.2.2
      ⟨2025, 1, 15, 9, 0, 0⟩ (by decide)⟩

/-! ## Claim C3 -/

/-- C3: on a results-listing page the step has exactly three outcomes.  A
page carrying the "No Records Found" marker settles to `noCaseFound`; a page
whose detail links include one whose visible (whitespace-stripped) text
equals the case identifier clicks it and stays `running`; a page with detail
links none of which match becomes `errored` (the step's repeated attempts
throw until the 30 s polling window expires, and the top-level handler
converts that into the errored state).  No other outcome — in particular no
`succeeded` — is reachable from a results listing. -/
theorem c3_results_listing_trichotomy (caseId : String) (now : JSDate) (p : Page)
    (hpt : detectPageType p = .searchResults) :
    (strContains p.bodyText "No Records Found" = true →
      runStepWithIoErrorHandling (some (.running caseId)) now p =
        some (.noCaseFound caseId)) ∧
    (∀ m rest, (findCaseDetailLinks p).filter (fun l => l.1 == caseId) = m :: rest →
      runStepWithIoErrorHandling (some (.running caseId)) now p =
        some (.running caseId)) ∧
    (findCaseDetailLinks p ≠ [] →
      (findCaseDetailLinks p).filter (fun l => l.1 == caseId) = [] →
      runStepWithIoErrorHandling (some (.running caseId)) now p =
        some (.errored caseId "Timed out waiting for search results to load.")) ∧
    (∀ d, runStepWithIoErrorHandling (some (.running caseId)) now p ≠
      some (.succeeded caseId d)) := by
  refine ⟨?_, ?_, ?_, ?_⟩
  · intro hm
    have hlinks : findCaseDetailLinks p = [] := by
      simp [findCaseDetailLinks, hm]
    simp [runStepWithIoErrorHandling, runScrapeStep, hpt, clickToCaseProfile,
      clickToCaseProfileOnce, hlinks]
  · intro m rest hfil
    have hne : (findCaseDetailLinks p).isEmpty = false := by
      cases hL : findCaseDetailLinks p with
      | nil => rw [hL] at hfil; simp at hfil
      | cons a l => simp
    simp [runStepWithIoErrorHandling, runScrapeStep, hpt, clickToCaseProfile,
      clickToCaseProfileOnce, hne, hfil]
  · intro hne0 hfil
    have hne : (findCaseDetailLinks p).isEmpty = false := by
      cases hL : findCaseDetailLinks p with
      | nil => exact absurd hL hne0
      | cons a l => simp
    simp [runStepWithIoErrorHandling, runScrapeStep, hpt, clickToCaseProfile,
      clickToCaseProfileOnce, hne, hfil, ScrapeState.caseId]
  · intro d
    simp only [runStepWithIoErrorHandling, runScrapeStep, hpt]
    cases hc : clickToCaseProfile caseId p with
    | ok o => cases o <;> simp
    | error e => simp

/-- Concrete pages for the C3 witness. -/
def c3CaseId : String := "3AN-25-08095CR"

def c3Now : JSDate := ⟨2025, 1, 1, 0, 0, 0⟩

def c3LinkOk : PageLink :=
  { text := "3AN-25-08095CR", href := "https://records.courts.alaska.gov/x",
    inResultsContainer := true }

def c3LinkOther : PageLink :=
  { text := "3PA-24-00277CR", href := "https://records.courts.alaska.gov/y",
    inResultsContainer := true }

def c3PageMarker : Page := { bodyText := "Search Results ... No Records Found" }

def c3PageMatch : Page := { bodyText := "Search Results", resultLinks := [c3LinkOk] }

def c3PageNoMatch : Page := { bodyText := "Search Results", resultLinks := [c3LinkOther] }

/-- Witness for C3: the three outcomes at three concrete listings. -/
theorem c3_results_listing_trichotomy_witness :
    runStepWithIoErrorHandling (some (.running c3CaseId)) c3Now c3PageMarker =
      some (.noCaseFound c3CaseId) ∧
    runStepWithIoErrorHandling (some (.running c3CaseId)) c3Now c3PageMatch =
      some (.running c3CaseId) ∧
    runStepWithIoErrorHandling (some (.running c3CaseId)) c3Now c3PageNoMatch =
      some (.errored c3CaseId "Timed out waiting for search results to load.") :=
  ⟨(c3_results_listing_trichotomy c3CaseId c3Now c3PageMarker (by decide)).1 (by decide),
   (c3_results_listing_trichotomy c3CaseId c3Now c3PageMatch (by decide)).2.1
     ("3AN-25-08095CR", c3LinkOk) [] (by decide),
   (c3_results_listing_trichotomy c3CaseId c3Now c3PageNoMatch (by decide)).2.2.1
     (by decide) (by decide)⟩

/-! ## Claim C5 -/

/-- C5: when the party extraction on a case-detail page leaves either the
prosecutor or the defendant untruthy (absent or empty), the step settles to
`errored` carrying the extraction-failure message (first conjunct, for pages
without an error banner; a banner page errors even earlier), and a
`succeeded` state is never produced — from any page — whose prosecutor or
defendant field is missing or empty (second conjunct). -/
theorem c5_missing_party_errors_and_success_has_parties (caseId : String)
    (now : JSDate) (p : Page) :
    (detectPageType p = .caseProfile → p.errorBanner = none →
      (truthy (extractPartiesLoop p.allElementTexts none none).1 = false ∨
        truthy (extractPartiesLoop p.allElementTexts none none).2 = false) →
      runStepWithIoErrorHandling (some (.running caseId)) now p =
        some (.errored caseId
          (partiesFailMsg caseId (extractPartiesLoop p.allElementTexts none none).1
            (extractPartiesLoop p.allElementTexts none none).2))) ∧
    (∀ cid d, runStepWithIoErrorHandling (some (.running caseId)) now p =
        some (.succeeded cid d) →
      (∃ s, d.prosecutor = some s ∧ s ≠ "") ∧ (∃ s, d.defendant = some s ∧ s ≠ "")) := by
  constructor
  · intro hpt hb hmiss
    have hguard : (truthy (extractPartiesLoop p.allElementTexts none none).1 &&
        truthy (extractPartiesLoop p.allElementTexts none none).2) = false := by
      rcases hmiss with h | h <;> simp [h]
    simp [runStepWithIoErrorHandling, runScrapeStep, hpt, parseCasePage, hb,
      extractCaseParties, hguard, ScrapeState.caseId]
  · intro cid d hout
    simp only [runStepWithIoErrorHandling, runScrapeStep] at hout
    cases hp : detectPageType p with
    | caseProfile =>
      rw [hp] at hout
      cases hpc : parseCasePage caseId now p with
      | ok data =>
        rw [hpc] at hout
        simp at hout
        obtain ⟨hcid, hdata⟩ := hout
        subst hdata
        simp only [parseCasePage] at hpc
        cases hbb : p.errorBanner with
        | some t => rw [hbb] at hpc; simp at hpc
        | none =>
          rw [hbb] at hpc
          cases hep : extractCaseParties caseId p with
          | ok r =>
            rw [hep] at hpc
            simp at hpc
            simp only [extractCaseParties] at hep
            split at hep
            · rename_i hguard
              simp only [Bool.and_eq_true] at hguard
              simp only [Except.ok.injEq] at hep
              subst hep
              cases hpc
              constructor
              · rcases hq : (extractPartiesLoop p.allElementTexts none none).1 with _ | s
                · rw [hq] at hguard
                  simp [truthy] at hguard
                · refine ⟨s, by simp [hq], ?_⟩
                  have h1 := hguard.1
                  rw [hq] at h1
                  simpa [truthy] using h1
              · rcases hq : (extractPartiesLoop p.allElementTexts none none).2 with _ | s
                · rw [hq] at hguard
                  simp [truthy] at hguard
                · refine ⟨s, by simp [hq], ?_⟩
                  have h2 := hguard.2
                  rw [hq] at h2
                  simpa [truthy] using h2
            · simp at hep
          | error e => rw [hep] at hpc; simp at hpc
      | error e => rw [hpc] at hout; simp at hout
    | welcome =>
      rw [hp] at hout
      cases hg : gotoSearchPage p with
      | ok u => rw [hg] at hout; simp at hout
      | error e => rw [hg] at hout; simp at hout
    | searchHome =>
      rw [hp] at hout
      cases hg : handleFillAndSearch p with
      | ok u => rw [hg] at hout; simp at hout
      | error e => rw [hg] at hout; simp at hout
    | searchResults =>
      rw [hp] at hout
      cases hg : clickToCaseProfile caseId p with
      | ok o => rw [hg] at hout; cases o <;> simp at hout
      | error e => rw [hg] at hout; simp at hout
    | unknown =>
      rw [hp] at hout
      simp at hout

/-- Concrete pages for the C5 witness. -/
def c5Now : JSDate := ⟨2025, 1, 1, 0, 0, 0⟩

def c5BadPage : Page :=
  { bodyText := "Case Type: Criminal",
    allElementTexts := ["no parties listed here"] }

def c5GoodPage : Page :=
  { bodyText := "Case Type: Criminal",
    allElementTexts := ["Baker, Ryan Craig - Defendant", "State of Alaska - Prosecution"] }

def c5GoodData : ScrapeData :=
  { nextCourtDateTime := none, prosecutor := some "State of Alaska",
    defendant := some "Baker, Ryan Craig" }

/-- Witness for C5: a detail page without party markers settles to the
extraction-failure `errored` state; the succeeded outcome of a well-formed
page carries both parties. -/
theorem c5_missing_party_errors_and_success_has_parties_witness :
    runStepWithIoErrorHandling (some (.running c3CaseId)) c5Now c5BadPage =
      some (.errored c3CaseId (partiesFailMsg c3CaseId none none)) ∧
    (∃ s, c5GoodData.prosecutor = some s ∧ s ≠ "") ∧
    (∃ s, c5GoodData.defendant = some s ∧ s ≠ "") :=
  ⟨(c5_missing_party_errors_and_success_has_parties c3CaseId c5Now c5BadPage).1
      (by decide) rfl (Or.inl (by decide)),
   (c5_missing_party_errors_and_success_has_parties c3CaseId c5Now c5GoodPage).2
      c3CaseId c5GoodData (by decide)⟩

/-! ## Claim C9 -/

/-- C9: for every starting state and page, the top-level step runner always
stores and reports a definite state (never leaves the job unreported), and
any failure thrown inside the step is converted into `errored` carrying the
failure message. -/
theorem c9_step_errors_caught_and_reported (st : ScrapeState) (now : JSDate)
    (p : Page) :
    (∃ s, runStepWithIoErrorHandling (some st) now p = some s) ∧
    (∀ msg, runScrapeStep st now p = .error msg →
      runStepWithIoErrorHandling (some st) now p = some (.errored st.caseId msg)) := by
  constructor
  · cases h : runScrapeStep st now p with
    | ok s => exact ⟨s, by simp [runStepWithIoErrorHandling, h]⟩
    | error e => exact ⟨.errored st.caseId e, by simp [runStepWithIoErrorHandling, h]⟩
  · intro msg h
    simp [runStepWithIoErrorHandling, h]

/-- Witness for C9 at a concrete failing page: the empty document is
`unknown`, whose budget-exhausted throw the runner converts and reports. -/
theorem c9_step_errors_caught_and_reported_witness :
    runStepWithIoErrorHandling (some (.running "3AN-25-08095CR")) c5Now ({} : Page) =
      some (.errored "3AN-25-08095CR"
        "Timed out waiting for page to load into a known state.") :=
  (c9_step_errors_caught_and_reported (.running "3AN-25-08095CR") c5Now ({} : Page)).2
    "Timed out waiting for page to load into a known state." rfl

/-! ## Claim C7 -/

/-- C7: `detectPageType` is a total function checking the categories in the
fixed order search input, "Case Type:" marker, "Search Results" marker,
"Search Cases" link; a document with none of these is `unknown`, and a
document with both the search input and a "Search Cases" link classifies as
`searchHome`, not `welcome`. -/
theorem c7_detectPageType_order (p : Page) :
    (p.hasCaseDscrInput = true → detectPageType p = .searchHome) ∧
    (p.hasCaseDscrInput = false → strContains p.bodyText "Case Type:" = true →
      detectPageType p = .caseProfile) ∧
    (p.hasCaseDscrInput = false → strContains p.bodyText "Case Type:" = false →
      strContains p.bodyText "Search Results" = true →
      detectPageType p = .searchResults) ∧
    (p.hasCaseDscrInput = false → strContains p.bodyText "Case Type:" = false →
      strContains p.bodyText "Search Results" = false → hasSearchCasesLink p = true →
      detectPageType p = .welcome) ∧
    (p.hasCaseDscrInput = false → strContains p.bodyText "Case Type:" = false →
      strContains p.bodyText "Search Results" = false → hasSearchCasesLink p = false →
      detectPageType p = .unknown) ∧
    (p.hasCaseDscrInput = true → hasSearchCasesLink p = true →
      detectPageType p = .searchHome ∧ detectPageType p ≠ .welcome) := by
  refine ⟨?_, ?_, ?_, ?_, ?_, ?_⟩ <;> intros <;> simp_all [detectPageType]

/-- Concrete document for the C7 witness: both the case-number input and a
"Search Cases" anchor are present. -/
def c7BothPage : Page :=
  { hasCaseDscrInput := true,
    anchors := [{ text := "Search Cases", href := "https://x/search.page" }] }

/-- Witness for C7: the ambiguous document classifies as the search form,
not the welcome page. -/
theorem c7_detectPageType_order_witness :
    detectPageType c7BothPage = .searchHome ∧ detectPageType c7BothPage ≠ .welcome :=
  (c7_detectPageType_order c7BothPage).2.2.2.2.2 rfl (by decide)

/-! ## Claim C8 -/

/-- C8: two-digit years map 00–49 to 2000–2049 and 50–99 to 1950–1999; every
accepted candidate denotes a real calendar date (the round-trip validation
through `Date` construction only passes in-range components), and the
impossible date `"02/30/2025"` is rejected by both parsers. -/
theorem c8_date_parsing_validation :
    (∀ y : Nat, y ≤ 49 → resolveYear y = 2000 + y) ∧
    (∀ y : Nat, 50 ≤ y → y ≤ 99 → resolveYear y = 1900 + y) ∧
    (∀ s d, parseUSDate s = some d →
      1 ≤ d.month ∧ d.month ≤ 12 ∧ 1 ≤ d.day ∧ d.day ≤ daysInMonth d.year d.month) ∧
    (∀ ds ts mer d, parseUSDateTime ds ts mer = some d →
      1 ≤ d.month ∧ d.month ≤ 12 ∧ 1 ≤ d.day ∧ d.day ≤ daysInMonth d.year d.month ∧
        d.hour ≤ 23 ∧ d.minute ≤ 59) ∧
    parseUSDate "02/30/2025" = none ∧
    parseUSDateTime "02/30/2025" "10:00" "AM" = none := by
  refine ⟨?_, ?_, ?_, ?_, by decide, by decide⟩
  · intro y hy
    have h1 : y < 100 := by omega
    have h2 : y < 50 := by omega
    simp [resolveYear, h1, h2]
    omega
  · intro y hy1 hy2
    have h1 : y < 100 := by omega
    have h2 : ¬ y < 50 := by omega
    simp [resolveYear, h1, h2]
    omega
  · intro s d h
    simp only [parseUSDate] at h
    repeat' split at h
    all_goals try cases h
    all_goals simp_all [dateComponentsValid]
  · intro ds ts mer d h
    simp only [parseUSDateTime] at h
    repeat' split at h
    all_goals try cases h
    all_goals simp_all [dateTimeComponentsValid, dateComponentsValid]

/-- Witness for C8: the year map at 25 and 75, and a concrete accepted date
is in range. -/
theorem c8_date_parsing_validation_witness :
    resolveYear 25 = 2000 + 25 ∧ resolveYear 75 = 1900 + 75 ∧
    (1 ≤ (⟨2025, 1, 15, 0, 0, 0⟩ : JSDate).month ∧
      (⟨2025, 1, 15, 0, 0, 0⟩ : JSDate).month ≤ 12 ∧
      1 ≤ (⟨2025, 1, 15, 0, 0, 0⟩ : JSDate).day ∧
      (⟨2025, 1, 15, 0, 0, 0⟩ : JSDate).day ≤
        daysInMonth (⟨2025, 1, 15, 0, 0, 0⟩ : JSDate).year
          (⟨2025, 1, 15, 0, 0, 0⟩ : JSDate).month) :=
  ⟨c8_date_parsing_validation.1 25 (by decide),
   c8_date_parsing_validation.2.1 75 (by decide) (by decide),
   c8_date_parsing_validation.2.2.1 "01/15/2025" ⟨2025, 1, 15, 0, 0, 0⟩ (by decide)⟩

/-! ## Association-list lemmas -/

theorem find?_mapReplace [BEq α] [LawfulBEq α] (k t : α) (v : β)
    (hne : (k == t) = false) :
    ∀ l : List (α × β),
      (l.map (fun e => if e.1 == k then (k, v) else e)).find? (fun e => e.1 == t) =
        l.find? (fun e => e.1 == t) := by
  intro l
  induction l with
  | nil => simp
  | cons e es ih =>
    by_cases he : (e.1 == k) = true
    · have he1 : e.1 = k := by exact eq_of_beq he
      have het : (e.1 == t) = false := by rw [he1]; exact hne
      simp [he, het, hne, List.find?, ih]
    · simp only [Bool.not_eq_true] at he
      by_cases het : (e.1 == t) = true
      · simp [he, het, List.find?]
      · simp only [Bool.not_eq_true] at het
        simp [he, het, List.find?, ih]

theorem find?_appendSingle [BEq α] (k t : α) (v : β) (hne : (k == t) = false) :
    ∀ l : List (α × β),
      (l ++ [(k, v)]).find? (fun e => e.1 == t) = l.find? (fun e => e.1 == t) := by
  intro l
  induction l with
  | nil => simp [List.find?, hne]
  | cons e es ih =>
    by_cases het : (e.1 == t) = true
    · simp [het, List.find?]
    · simp only [Bool.not_eq_true] at het
      simp [het, List.find?, ih]

theorem lookupAssoc_setAssoc_ne [BEq α] [LawfulBEq α] (l : List (α × β)) (k t : α)
    (v : β) (hne : (k == t) = false) :
    lookupAssoc (setAssoc l k v) t = lookupAssoc l t := by
  unfold setAssoc lookupAssoc
  split
  · rw [find?_mapReplace k t v hne l]
  · rw [find?_appendSingle k t v hne l]

theorem lookupAssoc_delAssoc_self [BEq α] (l : List (α × β)) (k : α) :
    lookupAssoc (delAssoc l k) k = none := by
  induction l with
  | nil => rfl
  | cons e es ih =>
    by_cases he : (e.1 == k) = true
    · have h1 : delAssoc (e :: es) k = delAssoc es k := by
        simp [delAssoc, List.filter_cons, he]
      rw [h1]
      exact ih
    · simp only [Bool.not_eq_true] at he
      have h1 : delAssoc (e :: es) k = e :: delAssoc es k := by
        simp [delAssoc, List.filter_cons, he]
      have h2 : lookupAssoc (e :: delAssoc es k) k = lookupAssoc (delAssoc es k) k := by
        unfold lookupAssoc
        rw [List.find?_cons_of_neg _ (by simp [he])]
      rw [h1, h2]
      exact ih

theorem hasAssoc_delAssoc_false [BEq α] (l : List (α × β)) (k k2 : α)
    (h : hasAssoc l k = false) : hasAssoc (delAssoc l k2) k = false := by
  unfold hasAssoc delAssoc at *
  induction l with
  | nil => simp
  | cons e es ih =>
    simp only [List.any_cons, Bool.or_eq_false_iff] at h
    by_cases he : (e.1 == k2) = true
    · simpa [he, List.filter] using ih h.2
    · simp only [Bool.not_eq_true] at he
      simp [he, List.filter, List.any_cons, h.1, ih h.2]

theorem hasAssoc_setAssoc_self [BEq α] [LawfulBEq α] (l : List (α × β)) (k : α)
    (v : β) : hasAssoc (setAssoc l k v) k = true := by
  unfold hasAssoc setAssoc
  split
  · rename_i hany
    rcases List.any_eq_true.mp hany with ⟨e, he, hek⟩
    refine List.any_eq_true.mpr ⟨(k, v), ?_, by simp⟩
    refine List.mem_map.mpr ⟨e, he, ?_⟩
    simp [hek]
  · simp

theorem hasAssoc_setAssoc_mono [BEq α] [LawfulBEq α] (l : List (α × β)) (k c : α)
    (v : β) (h : hasAssoc l c = true) : hasAssoc (setAssoc l k v) c = true := by
  unfold hasAssoc setAssoc at *
  split
  · rcases List.any_eq_true.mp h with ⟨e, he, hec⟩
    by_cases hek : (e.1 == k) = true
    · have h1 : e.1 = k := eq_of_beq hek
      have h2 : e.1 = c := eq_of_beq hec
      refine List.any_eq_true.mpr ⟨(k, v), List.mem_map.mpr ⟨e, he, by simp [hek]⟩, ?_⟩
      simp [← h1, h2]
    · simp only [Bool.not_eq_true] at hek
      exact List.any_eq_true.mpr ⟨e, List.mem_map.mpr ⟨e, he, by simp [hek]⟩, hec⟩
  · simp [List.any_append, h]

theorem delAssoc_length_lt [BEq α] (l : List (α × β)) (k : α)
    (h : hasAssoc l k = true) : (delAssoc l k).length < l.length := by
  unfold hasAssoc delAssoc at *
  induction l with
  | nil => simp at h
  | cons e es ih =>
    by_cases he : (e.1 == k) = true
    · have hle := List.length_filter_le (fun e => !(e.1 == k)) es
      simp only [List.filter, he, Bool.not_true, List.length_cons]
      omega
    · simp only [Bool.not_eq_true] at he
      simp only [List.any_cons, he, Bool.false_or] at h
      have := ih h
      simp only [List.filter, he, Bool.not_false, List.length_cons]
      omega

/-! ## Registration and queue-drain lemmas -/

theorem registerFresh_store (s : OrchState) (c : String) :
    (registerFresh s c).store = s.store := rfl

theorem registerFresh_closedTabs (s : OrchState) (c : String) :
    (registerFresh s c).closedTabs = s.closedTabs := rfl

theorem registerFresh_nextTabId (s : OrchState) (c : String) :
    (registerFresh s c).nextTabId = s.nextTabId + 1 := rfl

theorem foldl_registerFresh_store (cs : List String) (s : OrchState) :
    (cs.foldl registerFresh s).store = s.store := by
  induction cs generalizing s with
  | nil => rfl
  | cons c cs ih => rw [List.foldl_cons, ih, registerFresh_store]

theorem foldl_registerFresh_closedTabs (cs : List String) (s : OrchState) :
    (cs.foldl registerFresh s).closedTabs = s.closedTabs := by
  induction cs generalizing s with
  | nil => rfl
  | cons c cs ih => rw [List.foldl_cons, ih, registerFresh_closedTabs]

theorem hasAssoc_registerFresh_self (s : OrchState) (c : String) :
    hasAssoc (registerFresh s c).tabByCaseId c = true :=
  hasAssoc_setAssoc_self s.tabByCaseId c s.nextTabId

theorem hasAssoc_registerFresh_mono (s : OrchState) (c c' : String)
    (h : hasAssoc s.tabByCaseId c' = true) :
    hasAssoc (registerFresh s c).tabByCaseId c' = true :=
  hasAssoc_setAssoc_mono s.tabByCaseId c c' s.nextTabId h

theorem hasAssoc_foldl_registerFresh (cs : List String) (s : OrchState) (c : String)
    (hc : c ∈ cs ∨ hasAssoc s.tabByCaseId c = true) :
    hasAssoc ((cs.foldl registerFresh s)).tabByCaseId c = true := by
  induction cs generalizing s with
  | nil =>
    rcases hc with h | h
    · simp at h
    · simpa using h
  | cons x xs ih =>
    rw [List.foldl_cons]
    rcases hc with h | h
    · rcases List.mem_cons.mp h with h1 | h1
      · exact ih (registerFresh s x) (Or.inr (h1 ▸ hasAssoc_registerFresh_self s x))
      · exact ih (registerFresh s x) (Or.inl h1)
    · exact ih (registerFresh s x) (Or.inr (hasAssoc_registerFresh_mono s x c h))

theorem lookupJobs_registerFresh_none (s : OrchState) (c : String) (t : Nat)
    (ht : t < s.nextTabId) (h : lookupAssoc s.jobsByTab t = none) :
    lookupAssoc (registerFresh s c).jobsByTab t = none := by
  have hne : (s.nextTabId == t) = false := by
    simp only [beq_eq_false_iff_ne, ne_eq]
    omega
  show lookupAssoc (setAssoc s.jobsByTab s.nextTabId _) t = none
  rw [lookupAssoc_setAssoc_ne s.jobsByTab s.nextTabId t _ hne]
  exact h

theorem lookupJobs_foldl_registerFresh_none (cs : List String) (s : OrchState)
    (t : Nat) (ht : t < s.nextTabId) (h : lookupAssoc s.jobsByTab t = none) :
    lookupAssoc ((cs.foldl registerFresh s)).jobsByTab t = none := by
  induction cs generalizing s with
  | nil => exact h
  | cons x xs ih =>
    rw [List.foldl_cons]
    exact ih (registerFresh s x) (by rw [registerFresh_nextTabId]; omega)
      (lookupJobs_registerFresh_none s x t ht h)

theorem processScrapeQueueSettled_store (s : OrchState) :
    (processScrapeQueueSettled s).store = s.store := by
  unfold processScrapeQueueSettled
  split
  · rw [foldl_registerFresh_store]
  · rfl

theorem processScrapeQueueSettled_closedTabs (s : OrchState) :
    (processScrapeQueueSettled s).closedTabs = s.closedTabs := by
  unfold processScrapeQueueSettled
  split
  · rw [foldl_registerFresh_closedTabs]
  · rfl

theorem lookupJobs_processScrapeQueueSettled_none (s : OrchState) (t : Nat)
    (ht : t < s.nextTabId) (h : lookupAssoc s.jobsByTab t = none) :
    lookupAssoc (processScrapeQueueSettled s).jobsByTab t = none := by
  unfold processScrapeQueueSettled
  split
  · exact lookupJobs_foldl_registerFresh_none _ _ t ht h
  · exact h

theorem hasAssoc_processScrapeQueueSettled (s : OrchState) (c : String)
    (hlen : s.jobsByTab.length < MAX_CONCURRENT) (hcq : c ∈ s.scrapeQueue)
    (hnc : hasAssoc s.tabByCaseId c = false) :
    hasAssoc (processScrapeQueueSettled s).tabByCaseId c = true := by
  unfold processScrapeQueueSettled
  have hne : s.scrapeQueue ≠ [] := by
    intro hq
    rw [hq] at hcq
    simp at hcq
  rw [if_pos (by simp [hne, hlen])]
  refine hasAssoc_foldl_registerFresh _ _ c (Or.inl ?_)
  exact List.mem_filter.mpr ⟨hcq, by simp [hnc]⟩

/-! ## Case-store lemmas -/

theorem applyUpdates_id (c : Case) (u : CaseUpdates) : (applyUpdates c u).id = c.id := rfl

theorem updateCase_find? (store : List Case) (id : String) (u : CaseUpdates)
    (c : Case) (h : store.find? (fun x => x.id == id) = some c) :
    (updateCase store id u).find? (fun x => x.id == id) = some (applyUpdates c u) := by
  induction store with
  | nil => simp at h
  | cons a rest ih =>
    by_cases ha : (a.id == id) = true
    · rw [@List.find?_cons_of_pos _ (fun x => x.id == id) a rest ha] at h
      have hac : a = c := by injection h
      unfold updateCase
      rw [if_pos ha]
      rw [@List.find?_cons_of_pos _ (fun x => x.id == id) (applyUpdates a u)
        rest ha, hac]
    · simp only [Bool.not_eq_true] at ha
      rw [@List.find?_cons_of_neg _ (fun x => x.id == id) a rest (by simp [ha])] at h
      unfold updateCase
      rw [if_neg (by simp [ha])]
      rw [@List.find?_cons_of_neg _ (fun x => x.id == id) a (updateCase rest id u)
        (by simp [ha])]
      exact ih h

/-! ## Cleanup and timeout lemmas -/

theorem hasAssoc_of_lookupAssoc [BEq α] (l : List (α × β)) (k : α) (v : β)
    (h : lookupAssoc l k = some v) : hasAssoc l k = true := by
  unfold lookupAssoc at h
  unfold hasAssoc
  induction l with
  | nil => simp at h
  | cons e es ih =>
    by_cases he : (e.1 == k) = true
    · simp [he]
    · simp only [Bool.not_eq_true] at he
      rw [@List.find?_cons_of_neg _ (fun e => e.1 == k) e es (by simp [he])] at h
      simp only [List.any_cons, he, Bool.false_or]
      exact ih h

theorem cleanupJob_store (s : OrchState) (t : Nat) :
    (cleanupJob s t).store = s.store := by
  unfold cleanupJob
  split <;> rfl

theorem cleanupJob_closedTabs (s : OrchState) (t : Nat) :
    (cleanupJob s t).closedTabs = s.closedTabs := by
  unfold cleanupJob
  split <;> rfl

theorem cleanupJob_scrapeQueue (s : OrchState) (t : Nat) :
    (cleanupJob s t).scrapeQueue = s.scrapeQueue := by
  unfold cleanupJob
  split <;> rfl

theorem cleanupJob_nextTabId (s : OrchState) (t : Nat) :
    (cleanupJob s t).nextTabId = s.nextTabId := by
  unfold cleanupJob
  split <;> rfl

theorem cleanupJob_jobsByTab (s : OrchState) (t : Nat) :
    (cleanupJob s t).jobsByTab = delAssoc s.jobsByTab t := by
  unfold cleanupJob
  split <;> rfl

theorem cleanupJob_tabByCaseId (s : OrchState) (t : Nat) (job : ScrapeJob)
    (h : lookupAssoc s.jobsByTab t = some job) :
    (cleanupJob s t).tabByCaseId = delAssoc s.tabByCaseId job.caseId := by
  unfold cleanupJob
  rw [h]

/-- The state after the timeout handler's persist, cleanup and tab close,
right before it calls `processScrapeQueue`. -/
def timeoutIntermediate (s : OrchState) (tabId : Nat) (caseId ts : String) :
    OrchState :=
  let sa := { s with store := updateCase s.store caseId (timedOutUpdates caseId ts) }
  let sb := cleanupJob sa tabId
  { sb with closedTabs := sb.closedTabs ++ [tabId] }

theorem onJobTimeout_eq (s : OrchState) (tabId : Nat) (job : ScrapeJob) (ts : String)
    (h1 : lookupAssoc s.jobsByTab tabId = some job) (h2 : job.state.isRunning = true) :
    onJobTimeout s tabId ts =
      processScrapeQueueSettled (timeoutIntermediate s tabId job.caseId ts) := by
  unfold onJobTimeout
  rw [h1]
  simp [h2, timeoutIntermediate]

/-! ## Claim C6 -/

/-- Concrete state for the C6 counterexample: one running job whose
`keepTabOpen` flag is set. -/
def c6Job : ScrapeJob :=
  { caseId := "3AN-25-08095CR", tabId := 1, keepTabOpen := true,
    state := .running "3AN-25-08095CR" }

def c6Case : Case :=
  { id := "3AN-25-08095CR", defendantName := "Baker", prosecutor := none,
    notes := "", lastScrape := none, nextCourtDateTime := none }

def c6State : OrchState :=
  { jobsByTab := [(1, c6Job)], tabByCaseId := [("3AN-25-08095CR", 1)],
    scrapeQueue := [], nextTabId := 2, tabsOpened := 1, closedTabs := [],
    store := [c6Case] }

/-- C6 counterexample: the timeout handler closes the job's tab even though
`keepTabOpen` was requested — the claim's "closed unless keepContextOpen"
clause fails on the code (the handler has no `keepTabOpen` check). -/
theorem c6_timeout_closes_tab_despite_keepTabOpen :
    lookupAssoc c6State.jobsByTab 1 = some c6Job ∧
    c6Job.keepTabOpen = true ∧
    c6Job.state.isRunning = true ∧
    (onJobTimeout c6State 1 "2026-02-03T04:05:06.000Z").closedTabs = [1] := by
  refine ⟨rfl, rfl, rfl, ?_⟩
  decide

/-- C6 (amended): the per-job timer armed at admission fires after 60
seconds (`JOB_TIMEOUT_MS`); if the job is still registered and `running`,
an `Errored "Scrape timed out."` outcome is merged into the job's case
record, the tab is closed unconditionally (even when `keepTabOpen` was
requested), the job leaves the registry, and eligible backlog entries are
admitted (their case ids become active). -/
theorem c6_timeout_behavior_amended :
    JOB_TIMEOUT_MS = 60000 ∧
    ∀ (s : OrchState) (tabId : Nat) (job : ScrapeJob) (ts : String),
      lookupAssoc s.jobsByTab tabId = some job →
      job.state.isRunning = true →
      (∀ c, s.store.find? (fun x => x.id == job.caseId) = some c →
        (onJobTimeout s tabId ts).store.find? (fun x => x.id == job.caseId) =
          some (applyUpdates c (timedOutUpdates job.caseId ts))) ∧
      tabId ∈ (onJobTimeout s tabId ts).closedTabs ∧
      (tabId < s.nextTabId →
        lookupAssoc (onJobTimeout s tabId ts).jobsByTab tabId = none) ∧
      (s.jobsByTab.length ≤ MAX_CONCURRENT →
        ∀ c ∈ s.scrapeQueue, hasAssoc s.tabByCaseId c = false →
          hasAssoc (onJobTimeout s tabId ts).tabByCaseId c = true) := by
  refine ⟨rfl, ?_⟩
  intro s tabId job ts h1 h2
  rw [onJobTimeout_eq s tabId job ts h1 h2]
  have hsa : lookupAssoc ({ s with store := updateCase s.store job.caseId (timedOutUpdates job.caseId ts) } : OrchState).jobsByTab tabId = some job := h1
  have hstore : (timeoutIntermediate s tabId job.caseId ts).store =
      updateCase s.store job.caseId (timedOutUpdates job.caseId ts) := by
    simp only [timeoutIntermediate]
    rw [cleanupJob_store]
  have hclosed : (timeoutIntermediate s tabId job.caseId ts).closedTabs =
      s.closedTabs ++ [tabId] := by
    simp only [timeoutIntermediate]
    rw [cleanupJob_closedTabs]
  have hjobs : (timeoutIntermediate s tabId job.caseId ts).jobsByTab =
      delAssoc s.jobsByTab tabId := by
    simp only [timeoutIntermediate]
    rw [cleanupJob_jobsByTab]
  have hqueue : (timeoutIntermediate s tabId job.caseId ts).scrapeQueue =
      s.scrapeQueue := by
    simp only [timeoutIntermediate]
    rw [cleanupJob_scrapeQueue]
  have hnext : (timeoutIntermediate s tabId job.caseId ts).nextTabId =
      s.nextTabId := by
    simp only [timeoutIntermediate]
    rw [cleanupJob_nextTabId]
  have htb : (timeoutIntermediate s tabId job.caseId ts).tabByCaseId =
      delAssoc s.tabByCaseId job.caseId := by
    simp only [timeoutIntermediate]
    rw [cleanupJob_tabByCaseId _ _ job hsa]
  refine ⟨?_, ?_, ?_, ?_⟩
  · intro c hc
    rw [processScrapeQueueSettled_store, hstore]
    exact updateCase_find? s.store job.caseId (timedOutUpdates job.caseId ts) c hc
  · rw [processScrapeQueueSettled_closedTabs, hclosed]
    simp
  · intro ht
    refine lookupJobs_processScrapeQueueSettled_none _ tabId ?_ ?_
    · rw [hnext]; exact ht
    · rw [hjobs]; exact lookupAssoc_delAssoc_self s.jobsByTab tabId
  · intro hlen c hcq hnc
    refine hasAssoc_processScrapeQueueSettled _ c ?_ ?_ ?_
    · rw [hjobs]
      have hdel := delAssoc_length_lt s.jobsByTab tabId
        (hasAssoc_of_lookupAssoc s.jobsByTab tabId job h1)
      unfold MAX_CONCURRENT at hlen ⊢
      omega
    · rw [hqueue]; exact hcq
    · rw [htb]; exact hasAssoc_delAssoc_false s.tabByCaseId c job.caseId hnc

/-- Concrete state for the C6 witness: a running job for case `A` with a
queued case `B` and a stored record for `A`. -/
def c6wJob : ScrapeJob :=
  { caseId := "A", tabId := 0, keepTabOpen := false, state := .running "A" }

def c6wCase : Case :=
  { id := "A", defendantName := "", prosecutor := none, notes := "",
    lastScrape := none, nextCourtDateTime := none }

def c6wState : OrchState :=
  { jobsByTab := [(0, c6wJob)], tabByCaseId := [("A", 0)], scrapeQueue := ["B"],
    nextTabId := 1, tabsOpened := 1, closedTabs := [], store := [c6wCase] }

/-- Witness for C6 (amended) at a concrete state: outcome persisted, tab
closed, job deregistered, backlog entry `B` admitted. -/
theorem c6_timeout_behavior_amended_witness :
    (onJobTimeout c6wState 0 "TS").store.find? (fun x => x.id == "A") =
      some (applyUpdates c6wCase (timedOutUpdates "A" "TS")) ∧
    0 ∈ (onJobTimeout c6wState 0 "TS").closedTabs ∧
    lookupAssoc (onJobTimeout c6wState 0 "TS").jobsByTab 0 = none ∧
    hasAssoc (onJobTimeout c6wState 0 "TS").tabByCaseId "B" = true := by
  have h := c6_timeout_behavior_amended.2 c6wState 0 c6wJob "TS" rfl rfl
  exact ⟨h.1 c6wCase rfl, h.2.1, h.2.2.1 (by decide),
    h.2.2.2 (by decide) "B" (by decide) rfl⟩

/-! ## Claim C1 -/

/-- The interleaving of two rapid `START_SCRAPE` requests for the same case:
each message handler runs `startScrapeForCase` synchronously up to
`await chrome.tabs.create` (the dedup check plus the tab-open request), and
only afterwards do the two continuations register their jobs.  When the
second message is handled while the first awaits tab creation, both checks
see an empty `tabByCaseId`. -/
def c1CaseId : String := "3AN-25-08095CR"

def c1Trace : OrchState :=
  let r1 := startScrapeSyncPhase {} c1CaseId
  let r2 := startScrapeSyncPhase r1.1 c1CaseId
  let s2 := match r1.2 with
    | some t => startScrapeRegisterPhase r2.1 c1CaseId t false
    | none => r2.1
  match r2.2 with
  | some t => startScrapeRegisterPhase s2 c1CaseId t false
  | none => s2

/-- C1 is a code bug: two rapid `START_SCRAPE` requests for the same case
identifier open two tabs and register two jobs, because
`startScrapeForCase` checks `tabByCaseId` before `await chrome.tabs.create`
but registers the job only after it; the sequential (non-interleaved)
duplicate request is a no-op, as the last conjunct shows. -/
theorem c1_rapid_duplicate_requests_open_two_tabs :
    c1Trace.tabsOpened = 2 ∧
    c1Trace.jobsByTab.map (fun e => e.2.caseId) = [c1CaseId, c1CaseId] ∧
    (startScrapeForCase (startScrapeForCase {} c1CaseId false) c1CaseId false).tabsOpened
      = 1 := by
  decide

/-! ## Claim C2 -/

/-- Case ids for the C2 scenario: a `SCRAPE_ALL` over five saved cases. -/
def c2CaseIds : List String :=
  ["3AN-25-00001CR", "3AN-25-00002CR", "3AN-25-00003CR",
   "3AN-25-00004CR", "3AN-25-00005CR"]

def c2AfterScrapeAll : OrchState := handleScrapeAll {} c2CaseIds

def c2AfterTimeout : OrchState := onJobTimeout c2AfterScrapeAll 0 "TS"

/-- C2 is a code bug: `handleScrapeAll` itself respects the ceiling (three
active jobs, two queued), but as soon as one job frees capacity,
`processScrapeQueue` drains the whole backlog — its un-awaited
`startScrapeForCase` calls register only after the synchronous while loop
has finished, so `jobsByTab.size` never grows during the loop — leaving
four concurrent jobs, above `MAX_CONCURRENT = 3`. -/
theorem c2_queue_drain_exceeds_concurrency_ceiling :
    MAX_CONCURRENT = 3 ∧
    c2AfterScrapeAll.jobsByTab.length = 3 ∧
    c2AfterScrapeAll.scrapeQueue.length = 2 ∧
    c2AfterTimeout.jobsByTab.length = 4 := by
  decide

/-! ## Claim C10 -/

theorem succeededUpdates_lastScrape (ec : Option Case) (caseId : String)
    (data : ScrapeData) (ts : String) :
    (succeededUpdates ec caseId data ts).lastScrape =
      some (.succeeded caseId data, ts) := by
  simp only [succeededUpdates]
  split <;> split <;> rfl

theorem succeededUpdates_nextCourtDateTime (ec : Option Case) (caseId : String)
    (data : ScrapeData) (ts : String) :
    (succeededUpdates ec caseId data ts).nextCourtDateTime =
      some data.nextCourtDateTime := by
  simp only [succeededUpdates]
  split <;> split <;> rfl

theorem succeededUpdates_prosecutor_kept (c : Case) (caseId : String)
    (data : ScrapeData) (ts : String) (h : truthy c.prosecutor = true) :
    (succeededUpdates (some c) caseId data ts).prosecutor = none := by
  have hb : (truthy data.prosecutor && !truthy c.prosecutor) = false := by
    simp [h]
  simp [succeededUpdates, hb]
  split <;> rfl

theorem succeededUpdates_defendantName_kept (c : Case) (caseId : String)
    (data : ScrapeData) (ts : String) (h : c.defendantName ≠ "") :
    (succeededUpdates (some c) caseId data ts).defendantName = none := by
  have hb : (truthy data.defendant && (c.defendantName == "")) = false := by
    simp [h]
  simp [succeededUpdates, hb]
  split <;> rfl

theorem mergedCase_lastScrape (c : Case) (caseId : String) (data : ScrapeData)
    (ts : String) :
    (mergedCase c caseId data ts).lastScrape = some (.succeeded caseId data, ts) := by
  have h1 := succeededUpdates_lastScrape (some c) caseId data ts
  simp [mergedCase, applyUpdates, h1]

theorem mergedCase_nextCourtDateTime (c : Case) (caseId : String)
    (data : ScrapeData) (ts : String) :
    (mergedCase c caseId data ts).nextCourtDateTime = data.nextCourtDateTime := by
  have h1 := succeededUpdates_nextCourtDateTime (some c) caseId data ts
  simp [mergedCase, applyUpdates, h1]

theorem mergedCase_prosecutor_kept (c : Case) (caseId : String)
    (data : ScrapeData) (ts : String) (h : truthy c.prosecutor = true) :
    (mergedCase c caseId data ts).prosecutor = c.prosecutor := by
  have h1 := succeededUpdates_prosecutor_kept c caseId data ts h
  simp [mergedCase, applyUpdates, h1]

theorem mergedCase_defendantName_kept (c : Case) (caseId : String)
    (data : ScrapeData) (ts : String) (h : c.defendantName ≠ "") :
    (mergedCase c caseId data ts).defendantName = c.defendantName := by
  have h1 := succeededUpdates_defendantName_kept c caseId data ts h
  simp [mergedCase, applyUpdates, h1]

/-- C10: persisting a `succeeded` report merges the scraped values into the
stored record so that `lastScrape` and `nextCourtDateTime` are always
overwritten, while `prosecutor` and `defendantName` keep any existing
non-empty value — the scraped value lands in them only when the stored
field was absent or empty. -/
theorem c10_succeeded_persist_frame (store : List Case) (caseId : String)
    (data : ScrapeData) (ts : String) (c : Case)
    (hfind : store.find? (fun x => x.id == caseId) = some c) :
    (handleSucceededPersist store caseId data ts).find? (fun x => x.id == caseId) =
      some (mergedCase c caseId data ts) ∧
    (mergedCase c caseId data ts).lastScrape =
      some (.succeeded caseId data, ts) ∧
    (mergedCase c caseId data ts).nextCourtDateTime = data.nextCourtDateTime ∧
    (∀ s, c.prosecutor = some s → s ≠ "" →
      (mergedCase c caseId data ts).prosecutor = some s) ∧
    (c.defendantName ≠ "" →
      (mergedCase c caseId data ts).defendantName = c.defendantName) ∧
    ((mergedCase c caseId data ts).prosecutor ≠ c.prosecutor →
      (c.prosecutor = none ∨ c.prosecutor = some "")) ∧
    ((mergedCase c caseId data ts).defendantName ≠ c.defendantName →
      c.defendantName = "") := by
  refine ⟨?_, mergedCase_lastScrape c caseId data ts,
    mergedCase_nextCourtDateTime c caseId data ts, ?_, ?_, ?_, ?_⟩
  · unfold handleSucceededPersist
    rw [hfind]
    exact updateCase_find? store caseId _ c hfind
  · intro s hs hne
    have htr : truthy c.prosecutor = true := by simp [truthy, hs, hne]
    rw [mergedCase_prosecutor_kept c caseId data ts htr, hs]
  · exact mergedCase_defendantName_kept c caseId data ts
  · intro hchg
    by_contra hcon
    push_neg at hcon
    have htr : truthy c.prosecutor = true := by
      rcases hp : c.prosecutor with _ | s
      · exact absurd hp hcon.1
      · simp only [truthy]
        rcases eq_or_ne s "" with hs | hs
        · exact absurd (hp.trans (by rw [hs])) hcon.2
        · simp [hs]
    exact hchg (mergedCase_prosecutor_kept c caseId data ts htr)
  · intro hchg
    by_contra hcon
    exact hchg (mergedCase_defendantName_kept c caseId data ts hcon)

/-- Concrete inputs for the C10 witness: the stored record already has a
user-entered defendant name and an empty prosecutor. -/
def c10Case : Case :=
  { id := "3AN-25-08095CR", defendantName := "User Entered", prosecutor := some "",
    notes := "n", lastScrape := none, nextCourtDateTime := some "old" }

def c10Data : ScrapeData :=
  { nextCourtDateTime := some "2025-01-15T09:00:00",
    prosecutor := some "State of Alaska", defendant := some "Scraped Name" }

/-- Witness for C10: the merged record keeps the user-entered defendant
name, and `lastScrape`/`nextCourtDateTime` are overwritten. -/
theorem c10_succeeded_persist_frame_witness :
    (handleSucceededPersist [c10Case] "3AN-25-08095CR" c10Data "TS").find?
        (fun x => x.id == "3AN-25-08095CR") =
      some (mergedCase c10Case "3AN-25-08095CR" c10Data "TS") ∧
    (mergedCase c10Case "3AN-25-08095CR" c10Data "TS").defendantName =
      c10Case.defendantName ∧
    (mergedCase c10Case "3AN-25-08095CR" c10Data "TS").nextCourtDateTime =
      c10Data.nextCourtDateTime := by
  have h := c10_succeeded_persist_frame [c10Case] "3AN-25-08095CR" c10Data "TS"
    c10Case rfl
  exact ⟨h.1, h.2.2.2.2.1 (by decide), h.2.2.1⟩

end CourtViewer
